import Mathlib

/-!
# gr-mesa: source selector (arbitrator), its sample queue, and energy detector

A shallow embedding of `lib/SourceSelector_impl.cc` and, further down, of
`lib/MesaEnergyDetector_impl.cc`.

Modelling conventions
* `float` / `double` values (decision metrics, hold time, clock readings in
  seconds) are exact rationals; NaN and rounding are outside the model.
* `int` values are integers; the two `int` products of the constructor
  (`d_inputBlockSize * 2`, `d_inputBlockSize * 6`) are taken as 32-bit
  two's-complement results (`wrap32`), so they agree with the exact products
  only when those fit in 32 bits.
* `std::chrono::steady_clock::now()` is an explicit argument `now` of the
  handler: the handler reads the clock at most once per call.
* An access to the four-entry array `maxPower` outside `0..3` is undefined
  behaviour in the source; the model answers `none`.
* The PDU published on port `inputchange` carries the single key `inputport`;
  it is modelled by that integer.
-/

namespace Mesa

/-- A complex sample (`gr_complex`): real and imaginary part. -/
abbrev gr_complex := ℚ × ℚ

/-- An input PDU: the metadata dictionary (only the key `decisionvalue` is
read) and the sample vector. -/
structure Msg where
  decisionvalue : Option ℚ
  data : List gr_complex
deriving DecidableEq

/-- The member variables of `SourceSelector_impl`. -/
structure SourceSelector_impl where
  d_holdTime : ℚ
  d_numInputs : Int
  d_defaultInput : Int
  d_inputBlockSize : Int
  d_currentInput : Int
  d_startInitialized : Bool
  limitQueue : Bool
  maxQueueSize : Int
  minQueueLength : Int
  initialDataQueueRequirement : Int
  initialQueueSizeMet : Bool
  maxPower : Fin 4 → ℚ
  lastShifted : ℚ
  dataQueue : List gr_complex

/-- The value of a 32-bit `int` computation whose exact result is `x`:
`x` reduced to the range -2^31 .. 2^31 - 1 (two's complement). -/
def wrap32 (x : Int) : Int :=
  (x + 2147483648) % 4294967296 - 2147483648

/-- The constructor `SourceSelector_impl::SourceSelector_impl`.
`maxQueueSize` is left unset by the source (it is only read when `limitQueue`
holds, which the constructor clears); `lastShifted` is the default
(epoch) time point; the two thresholds are 32-bit `int` products. -/
def SourceSelector_impl.make (holdTime : ℚ) (numInputs defaultInput inputBlockSize : Int) :
    SourceSelector_impl :=
  let defaultInput' : Int := if defaultInput ≤ 0 then 1 else defaultInput
  { d_holdTime := holdTime
    d_numInputs := numInputs
    d_defaultInput := defaultInput
    d_inputBlockSize := inputBlockSize
    d_currentInput := defaultInput'
    d_startInitialized := false
    limitQueue := false
    maxQueueSize := 0
    minQueueLength := wrap32 (inputBlockSize * 2)
    initialDataQueueRequirement := wrap32 (inputBlockSize * 6)
    initialQueueSizeMet := false
    maxPower := fun _ => -999
    lastShifted := 0
    dataQueue := [] }

/-- The body of the loop of `maxPowerIndex` for one `i`: note that the source
compares with `curMax`, which it never updates. -/
def maxPowerIndexStep (maxPower : Fin 4 → ℚ) (curMax : ℚ) (maxIndex : Int) (i : Fin 4) : Int :=
  if maxPower i > curMax then (i.val : Int) else maxIndex

/-- `SourceSelector_impl::maxPowerIndex`: `maxIndex = 0`, `curMax = maxPower[0]`,
then the loop over `i = 1, 2, 3`. -/
def maxPowerIndex (maxPower : Fin 4 → ℚ) : Int :=
  let maxIndex : Int := 0
  let curMax : ℚ := maxPower 0
  ([1, 2, 3] : List (Fin 4)).foldl (maxPowerIndexStep maxPower curMax) maxIndex

/-- The array slot addressed by a C `int` index, when it is within `0..3`. -/
def slot? (i : Int) : Option (Fin 4) :=
  if h : 0 ≤ i ∧ i < 4 then some ⟨i.toNat, by omega⟩ else none

/-- `SourceSelector_impl::queueData`: push every sample of the message to the
tail of the queue (unless the queue is limited and full). -/
def queueData (s : SourceSelector_impl) (msg : Msg) : SourceSelector_impl :=
  if !s.limitQueue || decide ((s.dataQueue.length : Int) < s.maxQueueSize) then
    { s with dataQueue := s.dataQueue ++ msg.data }
  else s

/-- `SourceSelector_impl::sendNewPortMsg`: the PDU published on `inputchange`,
identified by its `inputport` entry. -/
def sendNewPortMsg (port : Int) : Int := port

/-- The member state after line 149 of the source: the metric of the message
(`decisionvalue`, or -999 when the key is absent) is stored in the slot of
the reporting port. -/
def recorded (s : SourceSelector_impl) (pi : Fin 4) (msg : Msg) : SourceSelector_impl :=
  { s with maxPower := Function.update s.maxPower pi (msg.decisionvalue.getD (-999)) }

/-- The member state after the start-up lock-on of lines 176-182: flag set,
current input and switch time replaced, message queued. -/
def lockedOn (s : SourceSelector_impl) (pi : Fin 4) (msg : Msg) (port : Int) (now : ℚ) :
    SourceSelector_impl :=
  queueData { recorded s pi msg with
                d_startInitialized := true, d_currentInput := port, lastShifted := now } msg

/-- The member state after the switch of lines 193-195: current input and
switch time replaced, message queued. -/
def switched (s : SourceSelector_impl) (pi : Fin 4) (msg : Msg) (port : Int) (now : ℚ) :
    SourceSelector_impl :=
  queueData { recorded s pi msg with d_currentInput := port, lastShifted := now } msg

/-- What one call of `handleMsg` did: the new member state, the PDUs published
on `inputchange` (in order), and whether `queueData(msg)` was called. -/
structure Outcome where
  state : SourceSelector_impl
  inputchange : List Int
  queued : Bool

/-- `SourceSelector_impl::handleMsg`, with the clock reading `now`. -/
def handleMsg (s : SourceSelector_impl) (now : ℚ) (msg : Msg) (port : Int) : Option Outcome :=
  match slot? (port - 1) with
  | none => none
  | some pi =>
    let s := recorded s pi msg
    let iMaxPowerPort : Int := maxPowerIndex s.maxPower + 1
    if s.d_currentInput = port ∧ iMaxPowerPort = port then
      some ⟨queueData s msg, [], true⟩
    else
      match slot? (s.d_currentInput - 1) with
      | none => none
      | some ci =>
        let powerDiff : ℚ := |s.maxPower pi - s.maxPower ci|
        if powerDiff > 2 then
          if iMaxPowerPort = port then
            if !s.d_startInitialized then
              let s := { s with d_startInitialized := true, d_currentInput := port,
                                lastShifted := now }
              some ⟨queueData s msg, [sendNewPortMsg port], true⟩
            else
              -- the inner `powerDiff` / `pctDiff` of the source are never used
              let curTimestamp : ℚ := now
              let elapsed_seconds : ℚ := curTimestamp - s.lastShifted
              if elapsed_seconds > s.d_holdTime then
                let s := { s with d_currentInput := port, lastShifted := curTimestamp }
                some ⟨queueData s msg, [sendNewPortMsg port], true⟩
              else
                some ⟨s, [], false⟩
          else
            some ⟨s, [], false⟩
        else
          some ⟨s, [], false⟩

/-- What one call of `work` did: the new member state, the return value, and
the samples written to `out[0 .. return value)`. -/
structure WorkResult where
  state : SourceSelector_impl
  ret : Int
  out : List gr_complex

/-- `SourceSelector_impl::work`. -/
def work (s : SourceSelector_impl) (noutput_items : Int) : WorkResult :=
  let curQueueSize : Int := s.dataQueue.length
  if !s.initialQueueSizeMet ∧ curQueueSize < s.initialDataQueueRequirement then
    ⟨s, 0, []⟩
  else
    let s := { s with initialQueueSizeMet := true }
    if curQueueSize < s.minQueueLength then
      ⟨s, 0, []⟩
    else if curQueueSize ≥ noutput_items then
      ⟨{ s with dataQueue := s.dataQueue.drop noutput_items.toNat }, noutput_items,
        s.dataQueue.take noutput_items.toNat⟩
    else
      ⟨s, 0, []⟩

/-- One call made on the block, in a sequential run: a channel report arriving
on input port `port` when the clock shows `now`, or a `work` call asking for
`noutput_items` samples. -/
inductive Call where
  | report (now : ℚ) (msg : Msg) (port : Int)
  | request (noutput_items : Int)

/-- The observable history of a sequential run: the member state, every
`inputchange` PDU published, every sample returned by `work`, every sample
handed to `queueData`, each in order. -/
structure Trace where
  state : SourceSelector_impl
  inputchange : List Int
  produced : List gr_complex
  accepted : List gr_complex

/-- Perform one call after the history `tr`. -/
def Trace.step (tr : Trace) : Call → Option Trace
  | .report now msg port =>
    match handleMsg tr.state now msg port with
    | none => none
    | some o =>
      some { state := o.state
             inputchange := tr.inputchange ++ o.inputchange
             produced := tr.produced
             accepted := tr.accepted ++ (if o.queued then msg.data else []) }
  | .request n =>
    let r := work tr.state n
    some { tr with state := r.state, produced := tr.produced ++ r.out }

/-- Perform the calls in order. -/
def Trace.run (tr : Trace) : List Call → Option Trace
  | [] => some tr
  | c :: cs =>
    match tr.step c with
    | none => none
    | some tr' => tr'.run cs

/-- The history of a freshly constructed block. -/
def Trace.start (s : SourceSelector_impl) : Trace :=
  { state := s, inputchange := [], produced := [], accepted := [] }

/-- The input port of a report lies in `1..4` (the four handlers
`handleMsgIn1` .. `handleMsgIn4`); a `work` call is always admissible. -/
def Call.portOk : Call → Prop
  | .report _ _ port => 1 ≤ port ∧ port ≤ 4
  | .request _ => True

instance : (c : Call) → Decidable c.portOk
  | .report _ _ port => by unfold Call.portOk; infer_instance
  | .request _ => by unfold Call.portOk; infer_instance

/-- The current input addresses one of the four table entries. -/
def CurrentInRange (s : SourceSelector_impl) : Prop :=
  1 ≤ s.d_currentInput ∧ s.d_currentInput ≤ 4

instance (s : SourceSelector_impl) : Decidable (CurrentInRange s) := by
  unfold CurrentInRange
  infer_instance

/-- What holds of every history of a block built with block size `bs`: the
current input is in range, the queue is unlimited, the samples produced
followed by the samples still queued are the samples accepted, the start-up
requirement is the 32-bit product `bs * 6`, nothing was produced before the
start-up gate opened, and the gate opened only with that many samples
accepted. -/
def Trace.Consistent (bs : Int) (tr : Trace) : Prop :=
  CurrentInRange tr.state
  ∧ tr.state.limitQueue = false
  ∧ tr.produced ++ tr.state.dataQueue = tr.accepted
  ∧ tr.state.initialDataQueueRequirement = wrap32 (bs * 6)
  ∧ (tr.state.initialQueueSizeMet = false → tr.produced = [])
  ∧ (tr.state.initialQueueSizeMet = true → wrap32 (bs * 6) ≤ (tr.accepted.length : Int))

/-- Along the calls `cs`, started with metric table `t`, every report comes
from a port in `1..4` and, once its metric is recorded, the metric of the
reporting port and the metric of channel `cur` differ by less than 2. -/
def staysWithinMargin (cur : Int) : (Fin 4 → ℚ) → List Call → Prop
  | _, [] => True
  | t, .request _ :: cs => staysWithinMargin cur t cs
  | t, .report _ msg port :: cs =>
    match slot? (port - 1), slot? (cur - 1) with
    | some pi, some ci =>
      let t' := Function.update t pi (msg.decisionvalue.getD (-999))
      |t' pi - t' ci| < 2 ∧ staysWithinMargin cur t' cs
    | _, _ => False

/-- For each report in turn (clock reading, message, port): the `inputchange`
PDUs it published and the current input after it. -/
def reportsLog (s : SourceSelector_impl) : List (ℚ × Msg × Int) → Option (List (List Int × Int))
  | [] => some []
  | (now, msg, port) :: rs =>
    match handleMsg s now msg port with
    | none => none
    | some o => (reportsLog o.state rs).map (fun l => (o.inputchange, o.state.d_currentInput) :: l)

/-- A block locked on channel 1 since time 0 (hold time 1 s) that has heard
channel 1 at metric 0 and channel 3 at metric 5. -/
def lockedOnOne : SourceSelector_impl :=
  { SourceSelector_impl.make 1 4 2 1024 with
    d_currentInput := 1
    d_startInitialized := true
    lastShifted := 0
    maxPower := Function.update (Function.update (fun _ => -999) 0 0) 2 5
    dataQueue := [(1, 0)] }

/-- Reports alternating between channel 1 and channel 2 with metrics
10, 11, 10.5 and 9. -/
def alternatingReports : List Call :=
  [.report 0 ⟨some 10, [(1, 0)]⟩ 1, .report 1 ⟨some 11, [(2, 0)]⟩ 2,
   .report 2 ⟨some (21 / 2), [(3, 0)]⟩ 1, .report 3 ⟨some 9, [(4, 0)]⟩ 2]

/-- A run with a switch: channel 1 is heard twice (three samples each), two
samples are requested, channel 2 takes over with two samples, four samples
are requested. -/
def switchingRun : List Call :=
  [.report 0 ⟨some 0, [(1, 0), (2, 0), (3, 0)]⟩ 1,
   .report 1 ⟨some 0, [(4, 0), (5, 0), (6, 0)]⟩ 1,
   .request 2,
   .report 5 ⟨some 10, [(7, 0), (8, 0)]⟩ 2,
   .request 4]

/-- A run that stays below the start-up threshold of a block with block
size 1: two samples are accepted, then one sample is requested. -/
def belowThresholdRun : List Call :=
  [.report 0 ⟨some 10, [(1, 0), (2, 0)]⟩ 1, .request 1]

/-- The three reports of the concrete scenario: channel 1 with metric 10 at
t = 0, channel 2 with metric 13 at t = 0.2 and again at t = 1.1, carrying the
sample blocks `x1`, `x2`, `x3`. -/
def scenario (x1 x2 x3 : List gr_complex) : List (ℚ × Msg × Int) :=
  [(0, ⟨some 10, x1⟩, 1), (1 / 5, ⟨some 13, x2⟩, 2), (11 / 10, ⟨some 13, x3⟩, 2)]

/-- A scalar `pmt` value made by `pmt::mp`: an integer or a real number. -/
inductive Pmt where
  | long (v : Int)
  | real (v : ℚ)
deriving DecidableEq

/-- A `pmt` dictionary: keys with their values, newest entry first. -/
abbrev Dict := List (String × Pmt)

/-- `pmt::make_dict`. -/
def make_dict : Dict := []

/-- `pmt::dict_has_key`. -/
def dict_has_key (dict : Dict) (key : String) : Bool :=
  dict.any (fun e => e.1 == key)

/-- `pmt::dict_ref`: the value stored under `key`, or `not_found`. -/
def dict_ref (dict : Dict) (key : String) (not_found : Pmt) : Pmt :=
  (dict.lookup key).getD not_found

/-- `pmt::dict_add`: the pair is put in front, an older entry for the same key
is dropped. -/
def dict_add (dict : Dict) (key : String) (value : Pmt) : Dict :=
  (key, value) :: dict.filter (fun e => e.1 != key)

/-- A PDU with samples: metadata and sample vector. -/
structure Pdu where
  meta : Dict
  data : List gr_complex
deriving DecidableEq

/-- One entry of `signalVector` (`SignalOverview`): the fields the source reads. -/
structure SignalOverview where
  centerFreqHz : ℚ
  widthHz : ℚ
  maxPower : ℚ
deriving DecidableEq

/-- Modelled from the spec: the parameters held by the external Spectral
Analyzer (`EnergyAnalyzer`, whose code is not among the sources). The spec
gives it a gettable and settable threshold and a settable duty cycle; the
constructor call of the source hands it the FFT size and both values. -/
structure EnergyAnalyzer where
  fftSize : Int
  threshold : ℚ
  minDutyCycle : ℚ
deriving DecidableEq

/-- Modelled from the spec: `getThreshold()` returns the threshold held. -/
def EnergyAnalyzer.getThreshold (a : EnergyAnalyzer) : ℚ := a.threshold

/-- Modelled from the spec: `setThreshold(v)` replaces the threshold held. -/
def EnergyAnalyzer.setThreshold (a : EnergyAnalyzer) (v : ℚ) : EnergyAnalyzer :=
  { a with threshold := v }

/-- Modelled from the spec: `setDutyCycle(v)` replaces the duty cycle held. -/
def EnergyAnalyzer.setDutyCycle (a : EnergyAnalyzer) (v : ℚ) : EnergyAnalyzer :=
  { a with minDutyCycle := v }

/-- What the analyzer calls of `processData` delivered: the return value of
`findSignals` and the vector it filled. -/
structure Found where
  numSignals : Int
  signalVector : List SignalOverview
deriving DecidableEq

/-- Modelled from the spec: `findSignals` yields the list of descriptors
found; its return value is their number. -/
def Found.ofList (descriptors : List SignalOverview) : Found :=
  { numSignals := descriptors.length, signalVector := descriptors }

/-- The member variables of `MesaEnergyDetector_impl` (`startup` is the
acquisition time, `endup` the time a signal was last seen). -/
structure MesaEnergyDetector_impl where
  d_fftSize : Int
  d_centerFreq : ℚ
  d_minWidthHz : ℚ
  d_maxWidthHz : ℚ
  d_sampleRate : ℚ
  d_holdUpSec : ℚ
  d_enableDebug : Bool
  d_framesToAvg : Int
  d_startInitialized : Bool
  d_genSignalPDUs : Bool
  startup : ℚ
  endup : ℚ
  pEnergyAnalyzer : EnergyAnalyzer
deriving DecidableEq

namespace MesaEnergyDetector_impl

/-- `MesaEnergyDetector_impl::calcMinDutyCycle`. -/
def calcMinDutyCycle (s : MesaEnergyDetector_impl) : ℚ :=
  let hzPerBucket : ℚ := s.d_sampleRate / s.d_fftSize
  let binsForMinHz : ℚ := s.d_minWidthHz / hzPerBucket
  let minDutyCycle : ℚ := binsForMinHz / s.d_fftSize
  minDutyCycle

/-- The constructor `MesaEnergyDetector_impl::MesaEnergyDetector_impl`; the two
time points start at the clock's epoch. -/
def make (fftsize : Int) (squelchThreshold minWidthHz maxWidthHz radioCenterFreq sampleRate
    holdUpSec : ℚ) (framesToAvg : Int) (genSignalPDUs enableDebug : Bool) :
    MesaEnergyDetector_impl :=
  let s : MesaEnergyDetector_impl :=
    { d_fftSize := fftsize
      d_centerFreq := radioCenterFreq
      d_minWidthHz := minWidthHz
      d_maxWidthHz := maxWidthHz
      d_sampleRate := sampleRate
      d_holdUpSec := holdUpSec
      d_enableDebug := enableDebug
      d_framesToAvg := framesToAvg
      d_startInitialized := false
      d_genSignalPDUs := genSignalPDUs
      startup := 0
      endup := 0
      pEnergyAnalyzer := ⟨fftsize, squelchThreshold, 0⟩ }
  let minDutyCycle := s.calcMinDutyCycle
  { s with pEnergyAnalyzer := ⟨fftsize, squelchThreshold, minDutyCycle⟩ }

/-- `getSquelch`. -/
def getSquelch (s : MesaEnergyDetector_impl) : ℚ := s.pEnergyAnalyzer.getThreshold

/-- `setSquelch`. -/
def setSquelch (s : MesaEnergyDetector_impl) (newValue : ℚ) : MesaEnergyDetector_impl :=
  { s with pEnergyAnalyzer := s.pEnergyAnalyzer.setThreshold newValue }

/-- `getCenterFrequency`. -/
def getCenterFrequency (s : MesaEnergyDetector_impl) : ℚ := s.d_centerFreq

/-- `setCenterFrequency`: the new state and the PDUs published on
`signaldetect`. -/
def setCenterFrequency (s : MesaEnergyDetector_impl) (newValue : ℚ) :
    MesaEnergyDetector_impl × List Dict :=
  if s.d_startInitialized then
    let meta := dict_add make_dict "state" (.long 0)
    ({ s with d_startInitialized := false, d_centerFreq := newValue }, [meta])
  else
    ({ s with d_centerFreq := newValue }, [])

/-- `getMinWidthHz`. -/
def getMinWidthHz (s : MesaEnergyDetector_impl) : ℚ := s.d_minWidthHz

/-- `setMinWidthHz`. -/
def setMinWidthHz (s : MesaEnergyDetector_impl) (newValue : ℚ) : MesaEnergyDetector_impl :=
  let s := { s with d_minWidthHz := newValue }
  let minDutyCycle := s.calcMinDutyCycle
  { s with pEnergyAnalyzer := s.pEnergyAnalyzer.setDutyCycle minDutyCycle }

/-- `getMaxWidthHz`. -/
def getMaxWidthHz (s : MesaEnergyDetector_impl) : ℚ := s.d_maxWidthHz

/-- `setMaxWidthHz`. -/
def setMaxWidthHz (s : MesaEnergyDetector_impl) (newValue : ℚ) : MesaEnergyDetector_impl :=
  { s with d_maxWidthHz := newValue }

/-- The state tracking of `processData` (lines 222-261): the new state and the
flags the block sets. -/
structure Tracked where
  state : MesaEnergyDetector_impl
  justDetectedSignal : Bool
  lostSignal : Bool
  signalPresent : Bool
  inHoldDown : Bool
deriving DecidableEq

/-- Lines 222-261 of `processData`. -/
def track (s : MesaEnergyDetector_impl) (now : ℚ) (numSignals : Int) : Tracked :=
  if numSignals > 0 then
    if !s.d_startInitialized then
      ⟨{ s with startup := now, endup := now, d_startInitialized := true },
        true, false, true, false⟩
    else
      ⟨{ s with endup := now }, false, false, true, false⟩
  else
    if s.d_startInitialized then
      let curTimestamp : ℚ := now
      let elapsed_seconds : ℚ := curTimestamp - s.endup
      if elapsed_seconds > s.d_holdUpSec then
        ⟨{ s with d_startInitialized := false }, false, true, false, false⟩
      else
        ⟨s, false, false, false, true⟩
    else
      ⟨s, false, false, false, false⟩

/-- One round of the loop of lines 279-285: the strongest signal so far, as
centre frequency, width and power. -/
def strongestStep (acc : ℚ × ℚ × ℚ) (sig : SignalOverview) : ℚ × ℚ × ℚ :=
  if sig.maxPower > acc.2.2 then (sig.centerFreqHz, sig.widthHz, sig.maxPower) else acc

/-- Lines 275-285: `maxCtrFreq`, `maxWidth`, `maxPower` after the loop. -/
def strongest (signalVector : List SignalOverview) : ℚ × ℚ × ℚ :=
  signalVector.foldl strongestStep (0, 0, -999)

/-- Lines 287-295: the metadata of the PDU sent when a signal was just
detected. -/
def acquiredMeta (s : MesaEnergyDetector_impl) (signalVector : List SignalOverview) : Dict :=
  let best := strongest signalVector
  let meta := make_dict
  let meta := dict_add meta "state" (.long 1)
  let meta := dict_add meta "numsignals" (.long signalVector.length)
  let meta := dict_add meta "radioFreq" (.real s.d_centerFreq)
  let meta := dict_add meta "sampleRate" (.real s.d_sampleRate)
  let meta := dict_add meta "strongestCenterFreq" (.real best.1)
  let meta := dict_add meta "strongestWidthHz" (.real best.2.1)
  let meta := dict_add meta "strongestPower" (.real best.2.2)
  meta

/-- Lines 302-306: the metadata of the PDU sent when the signal was just
lost. -/
def lostMeta (s : MesaEnergyDetector_impl) : Dict :=
  let meta := make_dict
  let meta := dict_add meta "state" (.long 0)
  let meta := dict_add meta "radioFreq" (.real s.d_centerFreq)
  let meta := dict_add meta "sampleRate" (.real s.d_sampleRate)
  meta

/-- The five `dict_add` calls of the branches without caller metadata. -/
def freshMeta (s : MesaEnergyDetector_impl) (centerFreq width power : ℚ) : Dict :=
  let meta := make_dict
  let meta := dict_add meta "radioFreq" (.real s.d_centerFreq)
  let meta := dict_add meta "sampleRate" (.real s.d_sampleRate)
  let meta := dict_add meta "signalCenterFreq" (.real centerFreq)
  let meta := dict_add meta "widthHz" (.real width)
  let meta := dict_add meta "maxPower" (.real power)
  meta

/-- One guarded addition to the caller's metadata:
`if (!dict_has_key(*pMetadata, key)) *pMetadata = dict_add(*pMetadata, key, value)`. -/
def addIfAbsent (pMetadata : Dict) (key : String) (value : Pmt) : Dict :=
  if !dict_has_key pMetadata key then dict_add pMetadata key value else pMetadata

/-- The five guarded additions of the branches with caller metadata. -/
def mergedMeta (s : MesaEnergyDetector_impl) (pMetadata : Dict) (centerFreq width power : ℚ) :
    Dict :=
  let pMetadata := addIfAbsent pMetadata "radioFreq" (.real s.d_centerFreq)
  let pMetadata := addIfAbsent pMetadata "sampleRate" (.real s.d_sampleRate)
  let pMetadata := addIfAbsent pMetadata "signalCenterFreq" (.real centerFreq)
  let pMetadata := addIfAbsent pMetadata "widthHz" (.real width)
  let pMetadata := addIfAbsent pMetadata "maxPower" (.real power)
  pMetadata

/-- One round of the loop of lines 316-370 for the entry `sig` of
`signalVector`: the caller's metadata as it stands (if there is any) and the
PDUs published on `signals` so far. -/
def segmentStep (s : MesaEnergyDetector_impl) (numSignals : Int) (data_out : List gr_complex)
    (acc : Option Dict × List Pdu) (sig : SignalOverview) : Option Dict × List Pdu :=
  if numSignals > 0 then
    match acc.1 with
    | none =>
      (none, acc.2 ++ [⟨freshMeta s sig.centerFreqHz sig.widthHz sig.maxPower, data_out⟩])
    | some pMetadata =>
      let pMetadata := mergedMeta s pMetadata sig.centerFreqHz sig.widthHz sig.maxPower
      (some pMetadata, acc.2 ++ [⟨pMetadata, data_out⟩])
  else
    match acc.1 with
    | none => (none, acc.2 ++ [⟨freshMeta s 0 0 0, data_out⟩])
    | some pMetadata =>
      let pMetadata := mergedMeta s pMetadata 0 0 0
      (some pMetadata, acc.2 ++ [⟨pMetadata, data_out⟩])

/-- What one call of `processData` did: the new member state, the return
value, the block written to `out`, the PDUs published on `signaldetect` and on
`signals` (in order) and the caller's metadata as it was left. -/
structure Processed where
  state : MesaEnergyDetector_impl
  ret : Int
  out : List gr_complex
  signaldetect : List Dict
  signals : List Pdu
  pMetadata : Option Dict
deriving DecidableEq

/-- `MesaEnergyDetector_impl::processData`, with the clock reading `now` and
the analyzer's answer `found`. -/
def processData (s : MesaEnergyDetector_impl) (now : ℚ) (input : List gr_complex)
    (found : Found) (pMetadata : Option Dict) : Processed :=
  let noutput_items : Int := input.length
  let numSignals := found.numSignals
  let signalVector := found.signalVector
  let out : List gr_complex :=
    if numSignals > 0 then input else List.replicate input.length (0, 0)
  let tracked := s.track now numSignals
  let s := tracked.state
  let detected : List Dict :=
    if tracked.justDetectedSignal then [acquiredMeta s signalVector] else []
  let lost : List Dict := if tracked.lostSignal then [lostMeta s] else []
  let segments : Option Dict × List Pdu :=
    if s.d_genSignalPDUs then
      signalVector.foldl (segmentStep s numSignals input) (pMetadata, [])
    else (pMetadata, [])
  { state := s
    ret := noutput_items
    out := out
    signaldetect := detected ++ lost
    signals := segments.2
    pMetadata := segments.1 }

/-- `MesaEnergyDetector_impl::work`: `processData` without caller metadata. -/
def work (s : MesaEnergyDetector_impl) (now : ℚ) (input : List gr_complex) (found : Found) :
    Processed :=
  s.processData now input found none

/-- `MesaEnergyDetector_impl::handleMsgIn`: nothing happens unless signal PDUs
are generated; otherwise the message is processed with its own metadata. -/
def handleMsgIn (s : MesaEnergyDetector_impl) (now : ℚ) (msg : Pdu) (found : Found) :
    Option Processed :=
  if !s.d_genSignalPDUs then none
  else some (s.processData now msg.data found (some msg.meta))

end MesaEnergyDetector_impl

/-- A PDU on `signaldetect` announcing an acquisition: `state` is 1. -/
def isAcquired (meta : Dict) : Bool := dict_ref meta "state" (.long (-1)) == .long 1

/-- A PDU on `signaldetect` announcing a loss: `state` is 0. -/
def isLost (meta : Dict) : Bool := dict_ref meta "state" (.long (-1)) == .long 0

/-- One block handed to `processData`: clock reading, samples, analyzer answer
and caller metadata (if any). -/
structure Block where
  now : ℚ
  input : List gr_complex
  found : Found
  pMetadata : Option Dict
deriving DecidableEq

/-- One call made on the detector in a sequential run. -/
inductive DetectorCall where
  | processData (b : Block)
  | setCenterFrequency (newValue : ℚ)
  | setMinWidthHz (newValue : ℚ)
  | setMaxWidthHz (newValue : ℚ)
  | setSquelch (newValue : ℚ)
deriving DecidableEq

/-- Perform one call: the new state and the PDUs published on `signaldetect`. -/
def DetectorCall.apply (s : MesaEnergyDetector_impl) :
    DetectorCall → MesaEnergyDetector_impl × List Dict
  | .processData b =>
    ((s.processData b.now b.input b.found b.pMetadata).state,
      (s.processData b.now b.input b.found b.pMetadata).signaldetect)
  | .setCenterFrequency v => s.setCenterFrequency v
  | .setMinWidthHz v => (s.setMinWidthHz v, [])
  | .setMaxWidthHz v => (s.setMaxWidthHz v, [])
  | .setSquelch v => (s.setSquelch v, [])

/-- Perform the calls in order: the final state and every PDU published on
`signaldetect`, in order. -/
def runCalls (s : MesaEnergyDetector_impl) : List DetectorCall → MesaEnergyDetector_impl × List Dict
  | [] => (s, [])
  | c :: cs => ((runCalls (c.apply s).1 cs).1, (c.apply s).2 ++ (runCalls (c.apply s).1 cs).2)

/-- The clock readings of the calls, in order (only `processData` reads the
clock). -/
def clockReadings : List DetectorCall → List ℚ
  | [] => []
  | .processData b :: cs => b.now :: clockReadings cs
  | _ :: cs => clockReadings cs

/-- A detector with FFT size 1024, squelch -60, widths 1 kHz to 50 kHz, centre
frequency 100 MHz, sample rate 1 MHz, hold-up 0.5 s, signal PDUs enabled. -/
def sampleDetector : MesaEnergyDetector_impl :=
  MesaEnergyDetector_impl.make 1024 (-60) 1000 50000 100000000 1000000 (1 / 2) 4 true false

/-- The calls that process the blocks in order. -/
def blockCalls (blocks : List Block) : List DetectorCall :=
  blocks.map DetectorCall.processData

/-- The analyzer reported one or more signals for the block. -/
def Block.present (b : Block) : Prop := b.found.numSignals > 0

instance (b : Block) : Decidable b.present := by
  unfold Block.present
  infer_instance

/-- A block of one sample at clock reading `now` for which the analyzer found
the given descriptors. -/
def blockAt (now : ℚ) (descriptors : List SignalOverview) : Block :=
  { now := now, input := [(1, 0)], found := Found.ofList descriptors, pMetadata := none }

/-- The five keys `processData` may add to the caller's metadata. -/
def segmentKeys : List String :=
  ["radioFreq", "sampleRate", "signalCenterFreq", "widthHz", "maxPower"]

/-- The dictionary `filled` holds every entry of `given` with its value, and
beyond those only entries under the five keys of `segmentKeys`. -/
def filledFrom (given filled : Dict) : Prop :=
  (∀ k v, given.lookup k = some v → filled.lookup k = some v)
  ∧ (∀ k v, filled.lookup k = some v → given.lookup k = some v ∨ k ∈ segmentKeys)

/-- A run of parameter changes: both widths are set twice. -/
def widthChanges : List DetectorCall :=
  [.setMinWidthHz 2000, .setMaxWidthHz 60000, .setMinWidthHz 500, .setMaxWidthHz 40000]

/-- A run with non-decreasing clock readings: acquisition at 0, signal seen
again at 1, a retune, a new acquisition at 2, signal seen at 3. -/
def retuneRun : List DetectorCall :=
  [.processData (blockAt 0 [⟨5, 6, -20⟩]), .processData (blockAt 1 [⟨5, 6, -20⟩]),
   .setCenterFrequency 433000000,
   .processData (blockAt 2 [⟨5, 6, -20⟩]), .processData (blockAt 3 [⟨5, 6, -20⟩])]

/-- A block (hold time 1 s, default channel 2) that locked on channel 1 at
time 0 with metric 10 and then, at time 0.2, refused channel 2 reporting
metric 13 because the hold time had not elapsed. -/
def heldDown : SourceSelector_impl :=
  recorded (lockedOn (SourceSelector_impl.make 1 4 2 1024) 0 ⟨some 10, [(1, 0)]⟩ 1 0) 1
    ⟨some 13, [(2, 0)]⟩

/-! ## The handler, branch by branch -/

theorem maxPowerIndex_eq (t : Fin 4 → ℚ) :
    maxPowerIndex t =
      if t 3 > t 0 then 3 else if t 2 > t 0 then 2 else if t 1 > t 0 then 1 else 0 := by
  simp only [maxPowerIndex, maxPowerIndexStep, List.foldl]
  rfl

theorem slot?_zero : slot? 0 = some 0 := rfl

theorem slot?_one : slot? 1 = some 1 := rfl

theorem slot?_val {i : Int} {k : Fin 4} (h : slot? i = some k) : (k.val : Int) = i := by
  unfold slot? at h
  split at h
  · next hi =>
    have hk : k = ⟨i.toNat, by omega⟩ := by simpa using h.symm
    rw [hk]
    simp only []
    omega
  · simp at h

theorem slot?_isSome (i : Int) (h : 1 ≤ i ∧ i ≤ 4) : ∃ k, slot? (i - 1) = some k := by
  unfold slot?
  have : 0 ≤ i - 1 ∧ i - 1 < 4 := by omega
  simp [this]

theorem handleMsg_accept (s : SourceSelector_impl) (now : ℚ) (msg : Msg) (port : Int) (pi : Fin 4)
    (hp : slot? (port - 1) = some pi) (hc : s.d_currentInput = port)
    (hw : maxPowerIndex (recorded s pi msg).maxPower + 1 = port) :
    handleMsg s now msg port = some ⟨queueData (recorded s pi msg) msg, [], true⟩ := by
  simp only [recorded] at hw
  simp [handleMsg, hp, hc, hw, recorded]

theorem handleMsg_margin (s : SourceSelector_impl) (now : ℚ) (msg : Msg) (port : Int)
    (pi ci : Fin 4) (hp : slot? (port - 1) = some pi)
    (hn : ¬ (s.d_currentInput = port ∧ maxPowerIndex (recorded s pi msg).maxPower + 1 = port))
    (hci : slot? (s.d_currentInput - 1) = some ci)
    (hd : ¬ (|(recorded s pi msg).maxPower pi - (recorded s pi msg).maxPower ci| > 2)) :
    handleMsg s now msg port = some ⟨recorded s pi msg, [], false⟩ := by
  simp only [recorded] at hn hd
  simp only [handleMsg, hp, hci, recorded, if_neg hn, if_neg hd]

theorem handleMsg_notWinner (s : SourceSelector_impl) (now : ℚ) (msg : Msg) (port : Int)
    (pi ci : Fin 4) (hp : slot? (port - 1) = some pi)
    (hci : slot? (s.d_currentInput - 1) = some ci)
    (hw : maxPowerIndex (recorded s pi msg).maxPower + 1 ≠ port) :
    handleMsg s now msg port = some ⟨recorded s pi msg, [], false⟩ := by
  simp only [recorded] at hw
  simp [handleMsg, hp, hci, recorded, hw]

theorem handleMsg_lockOn (s : SourceSelector_impl) (now : ℚ) (msg : Msg) (port : Int)
    (pi ci : Fin 4) (hp : slot? (port - 1) = some pi) (hc : s.d_currentInput ≠ port)
    (hci : slot? (s.d_currentInput - 1) = some ci)
    (hd : |(recorded s pi msg).maxPower pi - (recorded s pi msg).maxPower ci| > 2)
    (hw : maxPowerIndex (recorded s pi msg).maxPower + 1 = port)
    (hi : s.d_startInitialized = false) :
    handleMsg s now msg port = some ⟨lockedOn s pi msg port now, [port], true⟩ := by
  simp only [recorded, Function.update_same, gt_iff_lt] at hw hd
  simp [handleMsg, hp, hci, recorded, hw, hc, hd, hi, sendNewPortMsg, lockedOn]

theorem handleMsg_switch (s : SourceSelector_impl) (now : ℚ) (msg : Msg) (port : Int)
    (pi ci : Fin 4) (hp : slot? (port - 1) = some pi) (hc : s.d_currentInput ≠ port)
    (hci : slot? (s.d_currentInput - 1) = some ci)
    (hd : |(recorded s pi msg).maxPower pi - (recorded s pi msg).maxPower ci| > 2)
    (hw : maxPowerIndex (recorded s pi msg).maxPower + 1 = port)
    (hi : s.d_startInitialized = true) (ht : now - s.lastShifted > s.d_holdTime) :
    handleMsg s now msg port = some ⟨switched s pi msg port now, [port], true⟩ := by
  simp only [recorded, Function.update_same, gt_iff_lt] at hw hd
  simp only [gt_iff_lt] at ht
  simp [handleMsg, hp, hci, recorded, hw, hc, hd, hi, ht, sendNewPortMsg, switched]

theorem handleMsg_holdDown (s : SourceSelector_impl) (now : ℚ) (msg : Msg) (port : Int)
    (pi ci : Fin 4) (hp : slot? (port - 1) = some pi) (hc : s.d_currentInput ≠ port)
    (hci : slot? (s.d_currentInput - 1) = some ci)
    (hi : s.d_startInitialized = true) (ht : ¬ (now - s.lastShifted > s.d_holdTime)) :
    handleMsg s now msg port = some ⟨recorded s pi msg, [], false⟩ := by
  simp only [gt_iff_lt] at ht
  simp [handleMsg, hp, hci, recorded, hc, hi, ht]

theorem queueData_unlimited {s : SourceSelector_impl} (msg : Msg) (h : s.limitQueue = false) :
    queueData s msg = { s with dataQueue := s.dataQueue ++ msg.data } := by
  simp [queueData, h]

theorem queueData_frame (s : SourceSelector_impl) (msg : Msg) :
    (queueData s msg).d_currentInput = s.d_currentInput
    ∧ (queueData s msg).d_startInitialized = s.d_startInitialized
    ∧ (queueData s msg).lastShifted = s.lastShifted
    ∧ (queueData s msg).limitQueue = s.limitQueue
    ∧ (queueData s msg).initialQueueSizeMet = s.initialQueueSizeMet
    ∧ (queueData s msg).initialDataQueueRequirement = s.initialDataQueueRequirement
    ∧ (queueData s msg).maxPower = s.maxPower
    ∧ (queueData s msg).d_holdTime = s.d_holdTime := by
  unfold queueData
  split <;> simp

/-- Every call of `handleMsg` on a port in `1..4`, in a state whose current
input is in `1..4`, returns, through one of the four exits of the source. -/
theorem handleMsg_exits (s : SourceSelector_impl) (now : ℚ) (msg : Msg) (port : Int)
    (hc : CurrentInRange s) (hp : 1 ≤ port ∧ port ≤ 4) :
    ∃ pi, slot? (port - 1) = some pi ∧
      ((s.d_currentInput = port
          ∧ handleMsg s now msg port = some ⟨queueData (recorded s pi msg) msg, [], true⟩)
       ∨ handleMsg s now msg port = some ⟨recorded s pi msg, [], false⟩
       ∨ (s.d_currentInput ≠ port ∧ s.d_startInitialized = false
          ∧ handleMsg s now msg port = some ⟨lockedOn s pi msg port now, [port], true⟩)
       ∨ (s.d_currentInput ≠ port ∧ s.d_startInitialized = true
          ∧ now - s.lastShifted > s.d_holdTime
          ∧ handleMsg s now msg port = some ⟨switched s pi msg port now, [port], true⟩)) := by
  obtain ⟨pi, hpi⟩ := slot?_isSome port hp
  obtain ⟨ci, hci⟩ := slot?_isSome s.d_currentInput hc
  refine ⟨pi, hpi, ?_⟩
  by_cases hw : maxPowerIndex (recorded s pi msg).maxPower + 1 = port
  · by_cases hcur : s.d_currentInput = port
    · exact Or.inl ⟨hcur, handleMsg_accept s now msg port pi hpi hcur hw⟩
    · by_cases hd : |(recorded s pi msg).maxPower pi - (recorded s pi msg).maxPower ci| > 2
      · by_cases hi : s.d_startInitialized = true
        · by_cases ht : now - s.lastShifted > s.d_holdTime
          · exact Or.inr (Or.inr (Or.inr
              ⟨hcur, hi, ht, handleMsg_switch s now msg port pi ci hpi hcur hci hd hw hi ht⟩))
          · exact Or.inr (Or.inl (handleMsg_holdDown s now msg port pi ci hpi hcur hci hi ht))
        · have hi' : s.d_startInitialized = false := by simpa using hi
          exact Or.inr (Or.inr (Or.inl
            ⟨hcur, hi', handleMsg_lockOn s now msg port pi ci hpi hcur hci hd hw hi'⟩))
      · exact Or.inr (Or.inl (handleMsg_margin s now msg port pi ci hpi (fun h => hcur h.1) hci hd))
  · exact Or.inr (Or.inl (handleMsg_notWinner s now msg port pi ci hpi hci hw))

/-! ## C1: the winner computation -/

/-- C1 (the code misses it). The winner computation is meant to name the
channel with the largest metric, the lowest-numbered one on a tie. On the
table 0, 5, 3, 1 it names channel 4 although channel 2 holds the strict
maximum, and on the table 0, 5, 5, 0 it names channel 3 although channel 2 is
the lowest-numbered channel at the maximum. -/
theorem maxPowerIndex_misses_maximum :
    maxPowerIndex ![0, 5, 3, 1] + 1 = 4
    ∧ (∀ i : Fin 4, i ≠ 1 → (![0, 5, 3, 1] : Fin 4 → ℚ) i < (![0, 5, 3, 1] : Fin 4 → ℚ) 1)
    ∧ maxPowerIndex ![0, 5, 5, 0] + 1 = 3
    ∧ (∀ i : Fin 4, (![0, 5, 5, 0] : Fin 4 → ℚ) i ≤ (![0, 5, 5, 0] : Fin 4 → ℚ) 1) := by
  refine ⟨by decide, by decide, by decide, by decide⟩

/-! ## C2: hold-down enforcement -/

theorem lockedOnOne_reached :
    Trace.run (Trace.start (SourceSelector_impl.make 1 4 2 1024))
        [.report 0 ⟨some 0, [(1, 0)]⟩ 1, .report (1 / 2) ⟨some 5, [(3, 0)]⟩ 3]
      = some ⟨lockedOnOne, [1], [], [(1, 0)]⟩ := by
  have h1 : handleMsg (SourceSelector_impl.make 1 4 2 1024) 0 ⟨some 0, [(1, 0)]⟩ 1
      = some ⟨lockedOn (SourceSelector_impl.make 1 4 2 1024) 0 ⟨some 0, [(1, 0)]⟩ 1 0,
              [1], true⟩ :=
    handleMsg_lockOn _ _ _ _ 0 1 rfl (by decide) rfl
      (by simp [recorded, SourceSelector_impl.make]; norm_num)
      (by rw [maxPowerIndex_eq]; simp [recorded, SourceSelector_impl.make]; norm_num)
      rfl
  have h2 : handleMsg (lockedOn (SourceSelector_impl.make 1 4 2 1024) 0 ⟨some 0, [(1, 0)]⟩ 1 0)
        (1 / 2) ⟨some 5, [(3, 0)]⟩ 3
      = some ⟨recorded (lockedOn (SourceSelector_impl.make 1 4 2 1024) 0 ⟨some 0, [(1, 0)]⟩ 1 0)
                2 ⟨some 5, [(3, 0)]⟩, [], false⟩ :=
    handleMsg_holdDown _ _ _ _ 2 0 rfl (by decide) rfl rfl
      (by norm_num [lockedOn, queueData, recorded, SourceSelector_impl.make])
  simp only [Trace.run, Trace.step, Trace.start, h1, h2]
  rfl

/-- C2 (the code misses it). After the reports "channel 1, metric 0, t = 0" and
"channel 3, metric 5, t = 0.5" a block built with hold time 1 s and default
channel 2 is Locked on channel 1 with last switch at time 0. A report from
channel 2 with metric 10 at t = 5 then makes channel 2 strictly the largest
metric, more than 2 above channel 1, with the hold time long elapsed: the
claim demands one ChannelChanged(2) and a switch, the code publishes nothing,
stays on channel 1 and queues nothing, because `maxPowerIndex` names
channel 3. -/
theorem holdDown_elapsed_switch_missed :
    Trace.run (Trace.start (SourceSelector_impl.make 1 4 2 1024))
        [.report 0 ⟨some 0, [(1, 0)]⟩ 1, .report (1 / 2) ⟨some 5, [(3, 0)]⟩ 3]
      = some ⟨lockedOnOne, [1], [], [(1, 0)]⟩
    ∧ lockedOnOne.d_startInitialized = true ∧ lockedOnOne.d_currentInput = 1
    ∧ (5 : ℚ) - lockedOnOne.lastShifted > lockedOnOne.d_holdTime
    ∧ ∃ o, handleMsg lockedOnOne 5 ⟨some 10, [(2, 0)]⟩ 2 = some o
        ∧ (∀ i : Fin 4, i ≠ 1 → o.state.maxPower i < o.state.maxPower 1)
        ∧ o.state.maxPower 1 - o.state.maxPower 0 > 2
        ∧ maxPowerIndex o.state.maxPower + 1 = 3
        ∧ o.inputchange = [] ∧ o.queued = false
        ∧ o.state.d_currentInput = 1 ∧ o.state.lastShifted = 0
        ∧ o.state.dataQueue = lockedOnOne.dataQueue := by
  have hw : maxPowerIndex (recorded lockedOnOne 1 ⟨some 10, [(2, 0)]⟩).maxPower + 1 = 3 := by
    rw [maxPowerIndex_eq]; simp [recorded, lockedOnOne]; norm_num
  refine ⟨lockedOnOne_reached, rfl, rfl, by norm_num [lockedOnOne, SourceSelector_impl.make],
    _, handleMsg_notWinner _ _ _ _ 1 0 rfl rfl (by rw [hw]; decide), ?_, ?_, hw,
    rfl, rfl, rfl, rfl, rfl⟩
  · intro i hi
    fin_cases i <;> simp [recorded, lockedOnOne] at hi ⊢ <;> norm_num
  · simp [recorded, lockedOnOne]; norm_num

/-! ## C3: hysteresis -/

theorem work_frame (s : SourceSelector_impl) (n : Int) :
    (work s n).state.d_currentInput = s.d_currentInput
    ∧ (work s n).state.d_startInitialized = s.d_startInitialized
    ∧ (work s n).state.lastShifted = s.lastShifted
    ∧ (work s n).state.maxPower = s.maxPower
    ∧ (work s n).state.limitQueue = s.limitQueue
    ∧ (work s n).state.initialDataQueueRequirement = s.initialDataQueueRequirement := by
  dsimp only [work]
  split_ifs <;> simp

/-- One report whose recorded metric is within the margin of the current
channel's metric: nothing is published and the arbitration state stays. -/
theorem handleMsg_withinMargin (s : SourceSelector_impl) (now : ℚ) (msg : Msg) (port : Int)
    (pi ci : Fin 4) (hp : slot? (port - 1) = some pi)
    (hci : slot? (s.d_currentInput - 1) = some ci)
    (hd : |(recorded s pi msg).maxPower pi - (recorded s pi msg).maxPower ci| < 2) :
    ∃ o, handleMsg s now msg port = some o ∧ o.inputchange = []
      ∧ o.state.d_currentInput = s.d_currentInput
      ∧ o.state.d_startInitialized = s.d_startInitialized
      ∧ o.state.lastShifted = s.lastShifted
      ∧ o.state.maxPower = (recorded s pi msg).maxPower := by
  by_cases h : s.d_currentInput = port ∧ maxPowerIndex (recorded s pi msg).maxPower + 1 = port
  · have hq := queueData_frame (recorded s pi msg) msg
    exact ⟨_, handleMsg_accept s now msg port pi hp h.1 h.2, rfl, hq.1, hq.2.1, hq.2.2.1,
      hq.2.2.2.2.2.2.1⟩
  · exact ⟨_, handleMsg_margin s now msg port pi ci hp h hci (not_lt.mpr hd.le), rfl, rfl, rfl,
      rfl, rfl⟩

/-- C3. Along any sequence of calls in which every report, once its metric is
recorded, leaves the reporting channel's metric within the 2.0 margin of the
current channel's metric (in particular a single such report from any
channel, and any alternation between the current channel and one other
channel), no ChannelChanged is published and currentChannel, the
started flag and lastSwitchAt keep their values, in the Uninitialized state
as in the Locked state and whatever the clock readings and the winner
computation say. -/
theorem hysteresis_no_switch (cs : List Call) (tr : Trace)
    (h : staysWithinMargin tr.state.d_currentInput tr.state.maxPower cs) :
    ∃ tr', tr.run cs = some tr' ∧ tr'.inputchange = tr.inputchange
      ∧ tr'.state.d_currentInput = tr.state.d_currentInput
      ∧ tr'.state.d_startInitialized = tr.state.d_startInitialized
      ∧ tr'.state.lastShifted = tr.state.lastShifted := by
  induction cs generalizing tr with
  | nil => exact ⟨tr, rfl, rfl, rfl, rfl, rfl⟩
  | cons c cs ih =>
    cases c with
    | request n =>
      have hf := work_frame tr.state n
      have h' : staysWithinMargin
          ({ tr with state := (work tr.state n).state,
                     produced := tr.produced ++ (work tr.state n).out } : Trace).state.d_currentInput
          ({ tr with state := (work tr.state n).state,
                     produced := tr.produced ++ (work tr.state n).out } : Trace).state.maxPower
          cs := by
        simpa [staysWithinMargin, hf.1, hf.2.2.2.1] using h
      obtain ⟨tr', hr, he, hc, hi, hl⟩ := ih _ h'
      refine ⟨tr', ?_, ?_, ?_, ?_, ?_⟩
      · simpa [Trace.run, Trace.step] using hr
      · simpa using he
      · simpa [hf.1] using hc
      · simpa [hf.2.1] using hi
      · simpa [hf.2.2.1] using hl
    | report now msg port =>
      simp only [staysWithinMargin] at h
      split at h
      · next pi ci hpi hci =>
        obtain ⟨hd, hrest⟩ := h
        obtain ⟨o, ho, hev, hcur, hini, hlast, hmp⟩ :=
          handleMsg_withinMargin tr.state now msg port pi ci hpi hci hd
        have h' : staysWithinMargin
            ({ state := o.state, inputchange := tr.inputchange ++ o.inputchange,
               produced := tr.produced,
               accepted := tr.accepted ++ (if o.queued then msg.data else []) } :
              Trace).state.d_currentInput
            ({ state := o.state, inputchange := tr.inputchange ++ o.inputchange,
               produced := tr.produced,
               accepted := tr.accepted ++ (if o.queued then msg.data else []) } :
              Trace).state.maxPower cs := by
          simpa [hcur, hmp, recorded] using hrest
        obtain ⟨tr', hr, he, hc, hi, hl⟩ := ih _ h'
        refine ⟨tr', ?_, ?_, ?_, ?_, ?_⟩
        · simpa [Trace.run, Trace.step, ho] using hr
        · simpa [hev] using he
        · simpa [hcur] using hc
        · simpa [hini] using hi
        · simpa [hlast] using hl
      · exact h.elim

/-- Witness for C3: a fresh block with default channel 1 hears channels 1 and
2 alternate within the margin (channel 2 is nominally higher after the second
report) and never publishes. -/
theorem hysteresis_no_switch_witness :
    staysWithinMargin (Trace.start (SourceSelector_impl.make 1 4 1 1024)).state.d_currentInput
        (Trace.start (SourceSelector_impl.make 1 4 1 1024)).state.maxPower alternatingReports
    ∧ ∃ tr', (Trace.start (SourceSelector_impl.make 1 4 1 1024)).run alternatingReports = some tr'
        ∧ tr'.inputchange = (Trace.start (SourceSelector_impl.make 1 4 1 1024)).inputchange
        ∧ tr'.state.d_currentInput
            = (Trace.start (SourceSelector_impl.make 1 4 1 1024)).state.d_currentInput
        ∧ tr'.state.d_startInitialized
            = (Trace.start (SourceSelector_impl.make 1 4 1 1024)).state.d_startInitialized
        ∧ tr'.state.lastShifted
            = (Trace.start (SourceSelector_impl.make 1 4 1 1024)).state.lastShifted :=
  have h : staysWithinMargin
      (Trace.start (SourceSelector_impl.make 1 4 1 1024)).state.d_currentInput
      (Trace.start (SourceSelector_impl.make 1 4 1 1024)).state.maxPower alternatingReports := by
    simp [staysWithinMargin, alternatingReports, Trace.start, SourceSelector_impl.make,
      slot?_zero, slot?_one]
    norm_num [abs_lt]
  ⟨h, hysteresis_no_switch _ _ h⟩

/-! ## C4: the concrete scenario -/

/-- C4, counterexample. With default channel 1 the scenario runs otherwise:
the first report (channel 1, metric 10, t = 0) is queued without any event,
the second (channel 2, metric 13, t = 0.2) switches to channel 2 at once and
publishes ChannelChanged(2), the third (t = 1.1) publishes nothing. -/
theorem scenario_default_one :
    reportsLog (SourceSelector_impl.make 1 4 1 1024) (scenario [(1, 0)] [(2, 0)] [(3, 0)])
      = some [([], 1), ([2], 2), ([], 2)] := by
  have h1 : handleMsg (SourceSelector_impl.make 1 4 1 1024) 0 ⟨some 10, [(1, 0)]⟩ 1
      = some ⟨queueData (recorded (SourceSelector_impl.make 1 4 1 1024) 0 ⟨some 10, [(1, 0)]⟩)
                ⟨some 10, [(1, 0)]⟩, [], true⟩ :=
    handleMsg_accept _ _ _ _ 0 rfl rfl
      (by rw [maxPowerIndex_eq]; simp [recorded, SourceSelector_impl.make]; norm_num)
  have h2 := handleMsg_lockOn
    (queueData (recorded (SourceSelector_impl.make 1 4 1 1024) 0 ⟨some 10, [(1, 0)]⟩)
      ⟨some 10, [(1, 0)]⟩)
    (1 / 5) ⟨some 13, [(2, 0)]⟩ 2 1 0
    rfl (by decide) rfl
    (by simp [queueData, recorded, SourceSelector_impl.make]; norm_num)
    (by rw [maxPowerIndex_eq]; simp [queueData, recorded, SourceSelector_impl.make]; norm_num)
    rfl
  have h3 := handleMsg_accept
    (lockedOn (queueData (recorded (SourceSelector_impl.make 1 4 1 1024) 0
        ⟨some 10, [(1, 0)]⟩) ⟨some 10, [(1, 0)]⟩) 1 ⟨some 13, [(2, 0)]⟩ 2 (1 / 5))
    (11 / 10) ⟨some 13, [(3, 0)]⟩ 2 1
    rfl rfl
    (by rw [maxPowerIndex_eq]
        simp [lockedOn, queueData, recorded, SourceSelector_impl.make]; norm_num)
  simp only [reportsLog, scenario, h1, h2, h3]
  rfl

/-- C4, amended. For a freshly constructed block with hold time 1.0 s and a
default channel among 2, 3, 4 (any block size, any sample blocks), the three
reports give in order: ChannelChanged(1) with channel 1 current; no event
with channel 1 still current; ChannelChanged(2) with channel 2 current. -/
theorem scenario_default_other (d bs : Int) (x1 x2 x3 : List gr_complex)
    (hd2 : 2 ≤ d) (hd4 : d ≤ 4) :
    reportsLog (SourceSelector_impl.make 1 4 d bs) (scenario x1 x2 x3)
      = some [([1], 1), ([], 1), ([2], 2)] := by
  obtain ⟨ci, hci⟩ := slot?_isSome d ⟨by omega, hd4⟩
  have hcur : (SourceSelector_impl.make 1 4 d bs).d_currentInput = d := by
    simp only [SourceSelector_impl.make]
    rw [if_neg (by omega)]
  have hne : ci ≠ 0 := by
    intro h0
    have := slot?_val hci
    rw [h0] at this
    simp at this
    omega
  have h1 : handleMsg (SourceSelector_impl.make 1 4 d bs) 0 ⟨some 10, x1⟩ 1
      = some ⟨lockedOn (SourceSelector_impl.make 1 4 d bs) 0 ⟨some 10, x1⟩ 1 0, [1], true⟩ :=
    handleMsg_lockOn _ _ _ _ 0 ci rfl (by rw [hcur]; omega) (by rw [hcur]; exact hci)
      (by simp [recorded, SourceSelector_impl.make, Function.update_noteq hne]; norm_num)
      (by rw [maxPowerIndex_eq]; simp [recorded, SourceSelector_impl.make]; norm_num)
      rfl
  have h2 := handleMsg_holdDown
    (lockedOn (SourceSelector_impl.make 1 4 d bs) 0 ⟨some 10, x1⟩ 1 0)
    (1 / 5) ⟨some 13, x2⟩ 2 1 0
    rfl (by simp [lockedOn, queueData, recorded, SourceSelector_impl.make]) rfl rfl
    (by norm_num [lockedOn, queueData, recorded, SourceSelector_impl.make])
  have h3 := handleMsg_switch
    (recorded (lockedOn (SourceSelector_impl.make 1 4 d bs) 0 ⟨some 10, x1⟩ 1 0) 1
      ⟨some 13, x2⟩)
    (11 / 10) ⟨some 13, x3⟩ 2 1 0
    rfl (by simp [lockedOn, queueData, recorded, SourceSelector_impl.make]) rfl
    (by simp [lockedOn, queueData, recorded, SourceSelector_impl.make]; norm_num)
    (by rw [maxPowerIndex_eq]
        simp [lockedOn, queueData, recorded, SourceSelector_impl.make]; norm_num)
    rfl
    (by norm_num [lockedOn, queueData, recorded, SourceSelector_impl.make])
  simp only [reportsLog, scenario, h1, h2, h3]
  rfl

/-- Witness for C4 as amended: default channel 2, block size 1024. -/
theorem scenario_default_other_witness :
    (2 : Int) ≤ 2 ∧ (2 : Int) ≤ 4
    ∧ reportsLog (SourceSelector_impl.make 1 4 2 1024) (scenario [(1, 0)] [(2, 0)] [(3, 0)])
        = some [([1], 1), ([], 1), ([2], 2)] :=
  ⟨by decide, by decide,
    scenario_default_other 2 1024 [(1, 0)] [(2, 0)] [(3, 0)] (by decide) (by decide)⟩

/-! ## C5 - C8: single reports -/

theorem lockedOn_frame (s : SourceSelector_impl) (pi : Fin 4) (msg : Msg) (port : Int) (now : ℚ) :
    (lockedOn s pi msg port now).d_currentInput = port
    ∧ (lockedOn s pi msg port now).d_startInitialized = true
    ∧ (lockedOn s pi msg port now).lastShifted = now
    ∧ (lockedOn s pi msg port now).limitQueue = s.limitQueue
    ∧ (lockedOn s pi msg port now).initialQueueSizeMet = s.initialQueueSizeMet
    ∧ (lockedOn s pi msg port now).initialDataQueueRequirement = s.initialDataQueueRequirement := by
  unfold lockedOn queueData
  split <;> simp [recorded]

theorem switched_frame (s : SourceSelector_impl) (pi : Fin 4) (msg : Msg) (port : Int) (now : ℚ) :
    (switched s pi msg port now).d_currentInput = port
    ∧ (switched s pi msg port now).d_startInitialized = s.d_startInitialized
    ∧ (switched s pi msg port now).lastShifted = now
    ∧ (switched s pi msg port now).limitQueue = s.limitQueue
    ∧ (switched s pi msg port now).initialQueueSizeMet = s.initialQueueSizeMet
    ∧ (switched s pi msg port now).initialDataQueueRequirement = s.initialDataQueueRequirement := by
  unfold switched queueData
  split <;> simp [recorded]

/-- C5. In the Uninitialized state a report from a channel other than the
current one, whose recorded metric differs from the current channel's metric
by more than 2.0 and which the winner computation names, locks on at once,
whatever the clock shows: the flag is set, currentChannel is the reporting
channel, lastSwitchAt is the report time, the samples are appended to the
queue and exactly one ChannelChanged(channel) is published. -/
theorem startup_lockOn (s : SourceSelector_impl) (now : ℚ) (msg : Msg) (port : Int)
    (pi ci : Fin 4) (hp : slot? (port - 1) = some pi)
    (hci : slot? (s.d_currentInput - 1) = some ci)
    (hi : s.d_startInitialized = false) (hne : port ≠ s.d_currentInput)
    (hd : |(recorded s pi msg).maxPower pi - (recorded s pi msg).maxPower ci| > 2)
    (hw : maxPowerIndex (recorded s pi msg).maxPower + 1 = port)
    (hl : s.limitQueue = false) :
    ∃ o, handleMsg s now msg port = some o
      ∧ o.inputchange = [port]
      ∧ o.state.d_startInitialized = true
      ∧ o.state.d_currentInput = port
      ∧ o.state.lastShifted = now
      ∧ o.state.dataQueue = s.dataQueue ++ msg.data := by
  have hf := lockedOn_frame s pi msg port now
  refine ⟨_, handleMsg_lockOn s now msg port pi ci hp (Ne.symm hne) hci hd hw hi, rfl, hf.2.1,
    hf.1, hf.2.2.1, ?_⟩
  simp [lockedOn, queueData, recorded, hl]

/-- Witness for C5: a fresh block with default channel 2 hears channel 1 at
metric 10. -/
theorem startup_lockOn_witness :
    ∃ o, handleMsg (SourceSelector_impl.make 1 4 2 1024) 7 ⟨some 10, [(1, 0)]⟩ 1 = some o
      ∧ o.inputchange = [1]
      ∧ o.state.d_startInitialized = true
      ∧ o.state.d_currentInput = 1
      ∧ o.state.lastShifted = 7
      ∧ o.state.dataQueue = (SourceSelector_impl.make 1 4 2 1024).dataQueue
          ++ (⟨some 10, [(1, 0)]⟩ : Msg).data :=
  startup_lockOn (SourceSelector_impl.make 1 4 2 1024) 7 ⟨some 10, [(1, 0)]⟩ 1 0 1 rfl rfl rfl
    (by decide)
    (by simp [recorded, SourceSelector_impl.make]; norm_num)
    (by rw [maxPowerIndex_eq]; simp [recorded, SourceSelector_impl.make]; norm_num)
    rfl

/-- C6. A report from the current channel which the winner computation names
(after the metric is recorded) is accepted: the queue becomes the old queue
followed by the report's samples in order, nothing is published, and
currentChannel, the started flag and lastSwitchAt keep their values. -/
theorem steady_accept (s : SourceSelector_impl) (now : ℚ) (msg : Msg) (port : Int)
    (pi : Fin 4) (hp : slot? (port - 1) = some pi) (hc : s.d_currentInput = port)
    (hw : maxPowerIndex (recorded s pi msg).maxPower + 1 = port)
    (hl : s.limitQueue = false) :
    ∃ o, handleMsg s now msg port = some o
      ∧ o.state.dataQueue = s.dataQueue ++ msg.data
      ∧ o.inputchange = []
      ∧ o.state.d_currentInput = s.d_currentInput
      ∧ o.state.d_startInitialized = s.d_startInitialized
      ∧ o.state.lastShifted = s.lastShifted := by
  have hf := queueData_frame (recorded s pi msg) msg
  refine ⟨_, handleMsg_accept s now msg port pi hp hc hw, ?_, rfl, hf.1, hf.2.1, hf.2.2.1⟩
  simp [queueData, recorded, hl]

/-- Witness for C6: a fresh block with default channel 1 hears channel 1 at
metric 10. -/
theorem steady_accept_witness :
    ∃ o, handleMsg (SourceSelector_impl.make 1 4 1 1024) 0 ⟨some 10, [(1, 0), (2, 0)]⟩ 1 = some o
      ∧ o.state.dataQueue = (SourceSelector_impl.make 1 4 1 1024).dataQueue
          ++ (⟨some 10, [(1, 0), (2, 0)]⟩ : Msg).data
      ∧ o.inputchange = []
      ∧ o.state.d_currentInput = (SourceSelector_impl.make 1 4 1 1024).d_currentInput
      ∧ o.state.d_startInitialized = (SourceSelector_impl.make 1 4 1 1024).d_startInitialized
      ∧ o.state.lastShifted = (SourceSelector_impl.make 1 4 1 1024).lastShifted :=
  steady_accept (SourceSelector_impl.make 1 4 1 1024) 0 ⟨some 10, [(1, 0), (2, 0)]⟩ 1 0 rfl rfl
    (by rw [maxPowerIndex_eq]; simp [recorded, SourceSelector_impl.make]; norm_num)
    rfl

/-- C7. A report publishes at most one event, and it publishes
ChannelChanged(c) exactly when currentChannel after the report differs from
currentChannel before it; c is then the new currentChannel, which is the
reporting channel. -/
theorem inputchange_iff_switch (s : SourceSelector_impl) (now : ℚ) (msg : Msg) (port : Int)
    (hc : CurrentInRange s) (hp : 1 ≤ port ∧ port ≤ 4) :
    ∃ o, handleMsg s now msg port = some o
      ∧ o.inputchange.length ≤ 1
      ∧ (∀ c, c ∈ o.inputchange ↔
            (o.state.d_currentInput ≠ s.d_currentInput ∧ c = o.state.d_currentInput))
      ∧ (o.state.d_currentInput ≠ s.d_currentInput → o.state.d_currentInput = port) := by
  obtain ⟨pi, -, h | h | h | h⟩ := handleMsg_exits s now msg port hc hp
  · have hq : (queueData (recorded s pi msg) msg).d_currentInput = s.d_currentInput :=
      (queueData_frame (recorded s pi msg) msg).1
    refine ⟨_, h.2, by simp, ?_, ?_⟩ <;> simp [hq]
  · refine ⟨_, h, by simp, ?_, ?_⟩ <;> simp [recorded]
  · have hf := (lockedOn_frame s pi msg port now).1
    refine ⟨_, h.2.2, by simp, ?_, ?_⟩ <;> simp [hf, Ne.symm h.1]
  · have hf := (switched_frame s pi msg port now).1
    refine ⟨_, h.2.2.2, by simp, ?_, ?_⟩ <;> simp [hf, Ne.symm h.1]

/-- Witness for C7: the lock-on of a fresh block with default channel 2. -/
theorem inputchange_iff_switch_witness :
    ∃ o, handleMsg (SourceSelector_impl.make 1 4 2 1024) 0 ⟨some 10, [(1, 0)]⟩ 1 = some o
      ∧ o.inputchange.length ≤ 1
      ∧ (∀ c, c ∈ o.inputchange ↔
            (o.state.d_currentInput ≠ (SourceSelector_impl.make 1 4 2 1024).d_currentInput
              ∧ c = o.state.d_currentInput))
      ∧ (o.state.d_currentInput ≠ (SourceSelector_impl.make 1 4 2 1024).d_currentInput
            → o.state.d_currentInput = 1) :=
  inputchange_iff_switch (SourceSelector_impl.make 1 4 2 1024) 0 ⟨some 10, [(1, 0)]⟩ 1
    (by decide) (by decide)

/-- C8. If a report changes the sample queue at all, the reporting channel is
the current channel after the report: samples of a channel that is not
current at the end of its own report are never queued. -/
theorem queued_only_current (s : SourceSelector_impl) (now : ℚ) (msg : Msg) (port : Int)
    (hc : CurrentInRange s) (hp : 1 ≤ port ∧ port ≤ 4) :
    ∃ o, handleMsg s now msg port = some o
      ∧ (o.state.dataQueue ≠ s.dataQueue → port = o.state.d_currentInput) := by
  obtain ⟨pi, -, h | h | h | h⟩ := handleMsg_exits s now msg port hc hp
  · have hq : (queueData (recorded s pi msg) msg).d_currentInput = s.d_currentInput :=
      (queueData_frame (recorded s pi msg) msg).1
    exact ⟨_, h.2, fun _ => by rw [hq, h.1]⟩
  · exact ⟨_, h, fun hq => absurd rfl hq⟩
  · exact ⟨_, h.2.2, fun _ => (lockedOn_frame s pi msg port now).1.symm⟩
  · exact ⟨_, h.2.2.2, fun _ => (switched_frame s pi msg port now).1.symm⟩

/-- Witness for C8: the lock-on of a fresh block with default channel 2. -/
theorem queued_only_current_witness :
    ∃ o, handleMsg (SourceSelector_impl.make 1 4 2 1024) 0 ⟨some 10, [(1, 0)]⟩ 1 = some o
      ∧ (o.state.dataQueue ≠ (SourceSelector_impl.make 1 4 2 1024).dataQueue
            → 1 = o.state.d_currentInput) :=
  queued_only_current (SourceSelector_impl.make 1 4 2 1024) 0 ⟨some 10, [(1, 0)]⟩ 1
    (by decide) (by decide)

/-! ## C9, C10: the sample queue across reports and `work` calls -/

/-- The effect of one report on the fields the queue discipline depends on. -/
theorem handleMsg_effect (s : SourceSelector_impl) (now : ℚ) (msg : Msg) (port : Int)
    (hc : CurrentInRange s) (hp : 1 ≤ port ∧ port ≤ 4) (hl : s.limitQueue = false) :
    ∃ o, handleMsg s now msg port = some o
      ∧ CurrentInRange o.state
      ∧ o.state.limitQueue = false
      ∧ o.state.dataQueue = s.dataQueue ++ (if o.queued then msg.data else [])
      ∧ o.state.initialQueueSizeMet = s.initialQueueSizeMet
      ∧ o.state.initialDataQueueRequirement = s.initialDataQueueRequirement := by
  obtain ⟨pi, -, h | h | h | h⟩ := handleMsg_exits s now msg port hc hp
  · have hf := queueData_frame (recorded s pi msg) msg
    refine ⟨_, h.2, ?_, ?_, ?_, hf.2.2.2.2.1, hf.2.2.2.2.2.1⟩
    · exact ⟨by rw [hf.1]; exact hc.1, by rw [hf.1]; exact hc.2⟩
    · rw [hf.2.2.2.1]; exact hl
    · simp [queueData, recorded, hl]
  · exact ⟨_, h, hc, hl, by simp [recorded], rfl, rfl⟩
  · have hf := lockedOn_frame s pi msg port now
    refine ⟨_, h.2.2, ?_, ?_, ?_, hf.2.2.2.2.1, hf.2.2.2.2.2⟩
    · exact ⟨by rw [hf.1]; exact hp.1, by rw [hf.1]; exact hp.2⟩
    · rw [hf.2.2.2.1]; exact hl
    · simp [lockedOn, queueData, recorded, hl]
  · have hf := switched_frame s pi msg port now
    refine ⟨_, h.2.2.2, ?_, ?_, ?_, hf.2.2.2.2.1, hf.2.2.2.2.2⟩
    · exact ⟨by rw [hf.1]; exact hp.1, by rw [hf.1]; exact hp.2⟩
    · rw [hf.2.2.2.1]; exact hl
    · simp [switched, queueData, recorded, hl]

/-- The effect of one `work` call on the queue and on the start-up gate. -/
theorem work_effect (s : SourceSelector_impl) (n : Int) :
    (work s n).out ++ (work s n).state.dataQueue = s.dataQueue
    ∧ ((work s n).state.initialQueueSizeMet = false →
          s.initialQueueSizeMet = false ∧ (work s n).out = [])
    ∧ ((work s n).state.initialQueueSizeMet = true →
          s.initialQueueSizeMet = true
          ∨ s.initialDataQueueRequirement ≤ (s.dataQueue.length : Int)) := by
  dsimp only [work]
  split_ifs with h1 h2 h3
  · refine ⟨by simp, fun h => ⟨h, rfl⟩, fun h => Or.inl h⟩
  · refine ⟨by simp, by simp, fun _ => ?_⟩
    by_cases hm : s.initialQueueSizeMet = true
    · exact Or.inl hm
    · right
      have : ¬ ((s.dataQueue.length : Int) < s.initialDataQueueRequirement) := by
        intro hlt; exact h1 ⟨by simpa using hm, hlt⟩
      omega
  · refine ⟨by simp, by simp, fun _ => ?_⟩
    by_cases hm : s.initialQueueSizeMet = true
    · exact Or.inl hm
    · right
      have : ¬ ((s.dataQueue.length : Int) < s.initialDataQueueRequirement) := by
        intro hlt; exact h1 ⟨by simpa using hm, hlt⟩
      omega
  · refine ⟨by simp, by simp, fun _ => ?_⟩
    by_cases hm : s.initialQueueSizeMet = true
    · exact Or.inl hm
    · right
      have : ¬ ((s.dataQueue.length : Int) < s.initialDataQueueRequirement) := by
        intro hlt; exact h1 ⟨by simpa using hm, hlt⟩
      omega

theorem Trace.start_consistent (holdTime : ℚ) (numInputs defaultInput bs : Int)
    (hd : defaultInput ≤ 4) :
    (Trace.start (SourceSelector_impl.make holdTime numInputs defaultInput bs)).Consistent bs := by
  refine ⟨?_, rfl, rfl, rfl, fun _ => rfl, fun h => ?_⟩
  · simp only [CurrentInRange, Trace.start, SourceSelector_impl.make]
    split_ifs <;> omega
  · simp [Trace.start, SourceSelector_impl.make] at h

theorem Trace.step_consistent {bs : Int} {tr : Trace} (h : tr.Consistent bs) (c : Call)
    (hc : c.portOk) : ∃ tr', tr.step c = some tr' ∧ tr'.Consistent bs := by
  obtain ⟨hcur, hl, hq, hreq, hnone, hmet⟩ := h
  cases c with
  | report now msg port =>
    obtain ⟨o, ho, hcur', hl', hq', hm', hreq'⟩ :=
      handleMsg_effect tr.state now msg port hcur hc hl
    refine ⟨⟨o.state, tr.inputchange ++ o.inputchange, tr.produced,
        tr.accepted ++ (if o.queued then msg.data else [])⟩,
      by simp only [Trace.step, ho], hcur', hl', ?_, hreq'.trans hreq, ?_, ?_⟩
    · show tr.produced ++ o.state.dataQueue = _
      rw [hq', ← hq, List.append_assoc]
    · intro hf; exact hnone (hm'.symm.trans hf)
    · intro ht
      have := hmet (hm'.symm.trans ht)
      show wrap32 (bs * 6)
        ≤ ((tr.accepted ++ (if o.queued then msg.data else [])).length : Int)
      rw [List.length_append]
      push_cast
      omega
  | request n =>
    have hf := work_frame tr.state n
    obtain ⟨hw1, hw2, hw3⟩ := work_effect tr.state n
    refine ⟨⟨(work tr.state n).state, tr.inputchange, tr.produced ++ (work tr.state n).out,
        tr.accepted⟩, rfl, ⟨hf.1.symm ▸ hcur.1, hf.1.symm ▸ hcur.2⟩,
      hf.2.2.2.2.1.trans hl, ?_, hf.2.2.2.2.2.trans hreq, ?_, ?_⟩
    · show (tr.produced ++ (work tr.state n).out) ++ (work tr.state n).state.dataQueue = _
      rw [List.append_assoc, hw1]; exact hq
    · intro hm
      obtain ⟨hm0, hout⟩ := hw2 hm
      show tr.produced ++ (work tr.state n).out = []
      rw [hnone hm0, hout]; rfl
    · intro hm
      rcases hw3 hm with h | h
      · exact hmet h
      · have hlen : tr.state.dataQueue.length ≤ tr.accepted.length := by
          rw [← hq]; simp
        show wrap32 (bs * 6) ≤ (tr.accepted.length : Int)
        omega

theorem Trace.run_consistent {bs : Int} (cs : List Call) {tr : Trace} (h : tr.Consistent bs)
    (hc : ∀ c ∈ cs, c.portOk) : ∃ tr', tr.run cs = some tr' ∧ tr'.Consistent bs := by
  induction cs generalizing tr with
  | nil => exact ⟨tr, rfl, h⟩
  | cons c cs ih =>
    obtain ⟨tr1, h1, hc1⟩ := Trace.step_consistent h c (hc c (List.mem_cons_self _ _))
    obtain ⟨tr2, h2, hc2⟩ := ih hc1 (fun c' hc' => hc c' (List.mem_cons_of_mem _ hc'))
    exact ⟨tr2, by simp only [Trace.run, h1, h2], hc2⟩

/-- C9. From the initial state (default channel at most 4), after any
sequence of channel reports on ports 1..4 and `work` calls, the samples
returned by `work` so far, followed by the samples still queued, are exactly
the samples of the accepted reports in order of acceptance: nothing is lost,
duplicated or reordered, also across a switch of the current channel. -/
theorem queue_order_preserved (holdTime : ℚ) (numInputs defaultInput bs : Int)
    (cs : List Call) (hd : defaultInput ≤ 4) (hc : ∀ c ∈ cs, c.portOk) :
    ∃ tr, (Trace.start (SourceSelector_impl.make holdTime numInputs defaultInput bs)).run cs
        = some tr
      ∧ tr.produced ++ tr.state.dataQueue = tr.accepted := by
  obtain ⟨tr, hr, hcons⟩ :=
    Trace.run_consistent cs (Trace.start_consistent holdTime numInputs defaultInput bs hd) hc
  exact ⟨tr, hr, hcons.2.2.1⟩

theorem switchingRun_trace :
    ((Trace.start (SourceSelector_impl.make 1 4 2 1)).run switchingRun).map
        (fun tr => (tr.inputchange, tr.produced, tr.state.dataQueue, tr.accepted))
      = some ([1, 2], [(1, 0), (2, 0), (3, 0), (4, 0), (5, 0), (6, 0)], [(7, 0), (8, 0)],
              [(1, 0), (2, 0), (3, 0), (4, 0), (5, 0), (6, 0), (7, 0), (8, 0)]) := by
  have h1 := handleMsg_lockOn (SourceSelector_impl.make 1 4 2 1) 0
    ⟨some 0, [(1, 0), (2, 0), (3, 0)]⟩ 1 0 1
    rfl (by decide) rfl
    (by simp [recorded, SourceSelector_impl.make]; norm_num)
    (by rw [maxPowerIndex_eq]; simp [recorded, SourceSelector_impl.make]; norm_num)
    rfl
  have h2 := handleMsg_accept
    (lockedOn (SourceSelector_impl.make 1 4 2 1) 0 ⟨some 0, [(1, 0), (2, 0), (3, 0)]⟩ 1 0)
    1 ⟨some 0, [(4, 0), (5, 0), (6, 0)]⟩ 1 0 rfl rfl
    (by rw [maxPowerIndex_eq]
        simp [lockedOn, queueData, recorded, SourceSelector_impl.make]; norm_num)
  have h3 := handleMsg_switch
    (work (queueData (recorded (lockedOn (SourceSelector_impl.make 1 4 2 1) 0
        ⟨some 0, [(1, 0), (2, 0), (3, 0)]⟩ 1 0) 0 ⟨some 0, [(4, 0), (5, 0), (6, 0)]⟩)
        ⟨some 0, [(4, 0), (5, 0), (6, 0)]⟩) 2).state
    5 ⟨some 10, [(7, 0), (8, 0)]⟩ 2 1 0
    rfl (by decide) rfl
    (by simp [work, wrap32, lockedOn, queueData, recorded, SourceSelector_impl.make]; norm_num)
    (by rw [maxPowerIndex_eq]
        simp [work, wrap32, lockedOn, queueData, recorded, SourceSelector_impl.make]; norm_num)
    rfl
    (by norm_num [work, wrap32, lockedOn, queueData, recorded, SourceSelector_impl.make])
  simp only [switchingRun, Trace.run, Trace.step, Trace.start, h1, h2, h3]
  rfl

/-- Witness for C9: a run with block size 1 in which channel 2 takes over
from channel 1 between two `work` calls; the six samples of channel 1 are
produced in order and the two samples of channel 2 wait behind them. -/
theorem queue_order_preserved_witness :
    (2 : Int) ≤ 4 ∧ (∀ c ∈ switchingRun, c.portOk)
    ∧ (∃ tr, (Trace.start (SourceSelector_impl.make 1 4 2 1)).run switchingRun = some tr
        ∧ tr.produced ++ tr.state.dataQueue = tr.accepted)
    ∧ ((Trace.start (SourceSelector_impl.make 1 4 2 1)).run switchingRun).map
          (fun tr => (tr.inputchange, tr.produced, tr.state.dataQueue, tr.accepted))
        = some ([1, 2], [(1, 0), (2, 0), (3, 0), (4, 0), (5, 0), (6, 0)], [(7, 0), (8, 0)],
                [(1, 0), (2, 0), (3, 0), (4, 0), (5, 0), (6, 0), (7, 0), (8, 0)]) :=
  ⟨by decide, by decide, queue_order_preserved 1 4 2 1 switchingRun (by decide) (by decide),
    switchingRun_trace⟩

/-- A 32-bit product that fits is the exact product. -/
theorem wrap32_of_fits (x : Int) (h : -2147483648 ≤ x ∧ x < 2147483648) : wrap32 x = x := by
  unfold wrap32
  omega

/-- The start-up gate for every block size, in terms of the threshold the
constructor stores (the 32-bit product `bs * 6`). -/
theorem startup_gate_stored (holdTime : ℚ) (numInputs defaultInput bs : Int)
    (cs : List Call) (n : Int) (hd : defaultInput ≤ 4) (hc : ∀ c ∈ cs, c.portOk) :
    ∃ tr, (Trace.start (SourceSelector_impl.make holdTime numInputs defaultInput bs)).run cs
        = some tr
      ∧ ((tr.accepted.length : Int) < wrap32 (bs * 6) →
          (work tr.state n).ret = 0 ∧ (work tr.state n).out = []
          ∧ (work tr.state n).state.dataQueue = tr.state.dataQueue) := by
  obtain ⟨tr, hr, -, -, hq, hreq, hnone, hmet⟩ :=
    Trace.run_consistent cs (Trace.start_consistent holdTime numInputs defaultInput bs hd) hc
  refine ⟨tr, hr, fun hlt => ?_⟩
  have hm : tr.state.initialQueueSizeMet = false := by
    cases hb : tr.state.initialQueueSizeMet
    · rfl
    · have := hmet hb
      omega
  have hlen : tr.state.dataQueue.length = tr.accepted.length := by
    rw [← hq, hnone hm]; rfl
  have hgate : (!tr.state.initialQueueSizeMet) = true
      ∧ (tr.state.dataQueue.length : Int) < tr.state.initialDataQueueRequirement := by
    refine ⟨by simp [hm], ?_⟩
    rw [hreq, hlen]
    exact hlt
  dsimp only [work]
  rw [if_pos hgate]
  exact ⟨rfl, rfl, rfl⟩

/-- With block size 2^30 the 32-bit product `bs * 6` is -2^31: the gate opens
at the first `work` call, which returns the one sample queued. -/
theorem startup_threshold_wraps :
    (SourceSelector_impl.make 1 4 1 1073741824).initialDataQueueRequirement = -2147483648
    ∧ (SourceSelector_impl.make 1 4 1 1073741824).minQueueLength = -2147483648
    ∧ (work { SourceSelector_impl.make 1 4 1 1073741824 with dataQueue := [(1, 0)] } 1).ret = 1
    ∧ (work { SourceSelector_impl.make 1 4 1 1073741824 with dataQueue := [(1, 0)] } 1).out
        = [(1, 0)] := by
  decide

/-- C10. From the initial state of a block whose 6 x inputBlockSize fits a
32-bit `int` (so that the start-up threshold the constructor stores is
6 x inputBlockSize), after any sequence of channel reports on ports 1..4 and
`work` calls, a `work` call made while fewer than 6 x inputBlockSize samples
have been accepted in total returns zero samples and leaves the queue as it
is, whatever number of samples is requested. -/
theorem startup_gate (holdTime : ℚ) (numInputs defaultInput bs : Int)
    (cs : List Call) (n : Int) (hd : defaultInput ≤ 4) (hc : ∀ c ∈ cs, c.portOk)
    (hbs : -2147483648 ≤ 6 * bs ∧ 6 * bs < 2147483648) :
    ∃ tr, (Trace.start (SourceSelector_impl.make holdTime numInputs defaultInput bs)).run cs
        = some tr
      ∧ tr.state.initialDataQueueRequirement = 6 * bs
      ∧ ((tr.accepted.length : Int) < 6 * bs →
          (work tr.state n).ret = 0 ∧ (work tr.state n).out = []
          ∧ (work tr.state n).state.dataQueue = tr.state.dataQueue) := by
  have hfit : wrap32 (bs * 6) = 6 * bs := by
    rw [wrap32_of_fits (bs * 6) (by omega)]
    ring
  obtain ⟨tr, hr, -, -, -, hreq, -, -⟩ :=
    Trace.run_consistent cs (Trace.start_consistent holdTime numInputs defaultInput bs hd) hc
  obtain ⟨tr', hr', himp⟩ := startup_gate_stored holdTime numInputs defaultInput bs cs n hd hc
  have htr : tr' = tr := Option.some.inj (hr'.symm.trans hr)
  rw [htr, hfit] at himp
  exact ⟨tr, hr, hreq.trans hfit, himp⟩

theorem belowThresholdRun_trace :
    (Trace.start (SourceSelector_impl.make 1 4 1 1)).run belowThresholdRun
      = some ⟨queueData (recorded (SourceSelector_impl.make 1 4 1 1) 0
                ⟨some 10, [(1, 0), (2, 0)]⟩) ⟨some 10, [(1, 0), (2, 0)]⟩,
              [], [], [(1, 0), (2, 0)]⟩ := by
  have h1 : handleMsg (SourceSelector_impl.make 1 4 1 1) 0 ⟨some 10, [(1, 0), (2, 0)]⟩ 1
      = some ⟨queueData (recorded (SourceSelector_impl.make 1 4 1 1) 0
                ⟨some 10, [(1, 0), (2, 0)]⟩) ⟨some 10, [(1, 0), (2, 0)]⟩, [], true⟩ :=
    handleMsg_accept _ _ _ _ 0 rfl rfl
      (by rw [maxPowerIndex_eq]; simp [recorded, SourceSelector_impl.make]; norm_num)
  simp only [belowThresholdRun, Trace.run, Trace.step, Trace.start, h1]
  rfl

/-- Witness for C10: block size 1, so the threshold is 6 samples. After two
accepted samples and a first `work` call, a `work` call asking for 2 samples
(the queue holds 2, the steady-state minimum is 2) still returns nothing. -/
theorem startup_gate_witness :
    (1 : Int) ≤ 4 ∧ (∀ c ∈ belowThresholdRun, c.portOk)
    ∧ ((-2147483648 : Int) ≤ 6 * 1 ∧ (6 : Int) * 1 < 2147483648)
    ∧ ∃ tr, (Trace.start (SourceSelector_impl.make 1 4 1 1)).run belowThresholdRun = some tr
        ∧ (tr.accepted.length : Int) < 6 * 1
        ∧ tr.state.dataQueue = [(1, 0), (2, 0)]
        ∧ (work tr.state 2).ret = 0 ∧ (work tr.state 2).out = []
        ∧ (work tr.state 2).state.dataQueue = tr.state.dataQueue := by
  obtain ⟨tr, hr, -, himp⟩ :=
    startup_gate 1 4 1 1 belowThresholdRun 2 (by decide) (by decide) (by decide)
  have htr := Option.some.inj (hr.symm.trans belowThresholdRun_trace)
  have hlt : (tr.accepted.length : Int) < 6 * 1 := by rw [htr]; decide
  exact ⟨by decide, by decide, by decide, tr, hr, hlt, by rw [htr]; rfl, himp hlt⟩

/-! ## C11: the start-up gate stays open -/

/-- With block size -357913942 the 32-bit product `bs * 6` is 2147483644:
the start-up threshold the constructor stores is far above 6 x inputBlockSize,
which is negative. -/
theorem startup_threshold_wraps_negative :
    (SourceSelector_impl.make 1 4 1 (-357913942)).initialDataQueueRequirement = 2147483644
    ∧ (SourceSelector_impl.make 1 4 1 (-357913942)).minQueueLength = -715827884 := by
  decide

/-- C12. Whatever the state, the clock, the block, the analyzer's answer and
the caller metadata, `processData` writes a block of the input's length; it
is the input itself when the analyzer reports one or more signals and all
zeros when it reports none. -/
theorem mute_on_absence (s : MesaEnergyDetector_impl) (now : ℚ) (input : List gr_complex)
    (found : Found) (pMetadata : Option Dict) :
    (s.processData now input found pMetadata).out.length = input.length
    ∧ (s.processData now input found pMetadata).ret = input.length
    ∧ (found.numSignals > 0 → (s.processData now input found pMetadata).out = input)
    ∧ (¬ found.numSignals > 0 →
        (s.processData now input found pMetadata).out = List.replicate input.length (0, 0)) := by
  refine ⟨?_, rfl, fun h => ?_, fun h => ?_⟩
  · show (if found.numSignals > 0 then input
        else List.replicate input.length ((0, 0) : gr_complex)).length = input.length
    split <;> simp
  · show (if found.numSignals > 0 then input
        else List.replicate input.length ((0, 0) : gr_complex)) = input
    rw [if_pos h]
  · show (if found.numSignals > 0 then input
        else List.replicate input.length ((0, 0) : gr_complex)) = _
    rw [if_neg h]

/-- Witness for C12: the same two-sample block with one signal found (passed
through, the detector being inactive) and with none found (muted). -/
theorem mute_on_absence_witness :
    (sampleDetector.processData 0 [(1, 2), (3, 4)] (Found.ofList [⟨5, 6, -20⟩]) none).out
      = [(1, 2), (3, 4)]
    ∧ (sampleDetector.processData 0 [(1, 2), (3, 4)] (Found.ofList []) none).out
      = [(0, 0), (0, 0)] :=
  ⟨(mute_on_absence sampleDetector 0 [(1, 2), (3, 4)] (Found.ofList [⟨5, 6, -20⟩]) none).2.2.1
      (by decide),
   (mute_on_absence sampleDetector 0 [(1, 2), (3, 4)] (Found.ofList []) none).2.2.2
      (by decide)⟩

/-! ## C13: the state step of the tracker -/

theorem processData_state (s : MesaEnergyDetector_impl) (now : ℚ) (input : List gr_complex)
    (found : Found) (pMetadata : Option Dict) :
    (s.processData now input found pMetadata).state = (s.track now found.numSignals).state
    ∧ (s.processData now input found pMetadata).signaldetect
        = (if (s.track now found.numSignals).justDetectedSignal
            then [MesaEnergyDetector_impl.acquiredMeta (s.track now found.numSignals).state
                    found.signalVector]
            else [])
          ++ (if (s.track now found.numSignals).lostSignal
            then [MesaEnergyDetector_impl.lostMeta (s.track now found.numSignals).state]
            else []) :=
  ⟨rfl, rfl⟩

theorem acquiredMeta_isAcquired (s : MesaEnergyDetector_impl) (l : List SignalOverview) :
    isAcquired (MesaEnergyDetector_impl.acquiredMeta s l) = true
    ∧ isLost (MesaEnergyDetector_impl.acquiredMeta s l) = false := by
  constructor <;>
    simp [isAcquired, isLost, MesaEnergyDetector_impl.acquiredMeta, dict_ref, dict_add,
      make_dict, List.lookup]

theorem lostMeta_isLost (s : MesaEnergyDetector_impl) :
    isLost (MesaEnergyDetector_impl.lostMeta s) = true
    ∧ isAcquired (MesaEnergyDetector_impl.lostMeta s) = false := by
  constructor <;>
    simp [isAcquired, isLost, MesaEnergyDetector_impl.lostMeta, dict_ref, dict_add,
      make_dict, List.lookup]

/-- The four cases of the state step of `processData`, with what is published
on `signaldetect` in each. -/
theorem processData_cases (s : MesaEnergyDetector_impl) (now : ℚ) (input : List gr_complex)
    (found : Found) (pMetadata : Option Dict) :
    (found.numSignals > 0 → s.d_startInitialized = false →
        (s.processData now input found pMetadata).state
          = { s with startup := now, endup := now, d_startInitialized := true }
        ∧ ∃ e, (s.processData now input found pMetadata).signaldetect = [e]
            ∧ isAcquired e = true ∧ isLost e = false)
    ∧ (found.numSignals > 0 → s.d_startInitialized = true →
        (s.processData now input found pMetadata).state = { s with endup := now }
        ∧ (s.processData now input found pMetadata).signaldetect = [])
    ∧ (¬ found.numSignals > 0 → s.d_startInitialized = true →
        now - s.endup > s.d_holdUpSec →
        (s.processData now input found pMetadata).state = { s with d_startInitialized := false }
        ∧ ∃ e, (s.processData now input found pMetadata).signaldetect = [e]
            ∧ isLost e = true ∧ isAcquired e = false)
    ∧ (¬ found.numSignals > 0 → s.d_startInitialized = true →
        ¬ now - s.endup > s.d_holdUpSec →
        (s.processData now input found pMetadata).state = s
        ∧ (s.processData now input found pMetadata).signaldetect = [])
    ∧ (¬ found.numSignals > 0 → s.d_startInitialized = false →
        (s.processData now input found pMetadata).state = s
        ∧ (s.processData now input found pMetadata).signaldetect = []) := by
  obtain ⟨hs, he⟩ := processData_state s now input found pMetadata
  rw [hs, he]
  refine ⟨fun h1 h2 => ?_, fun h1 h2 => ?_, fun h1 h2 h3 => ?_, fun h1 h2 h3 => ?_,
    fun h1 h2 => ?_⟩
  · have ht : s.track now found.numSignals
        = ⟨{ s with startup := now, endup := now, d_startInitialized := true },
            true, false, true, false⟩ := by
      simp [MesaEnergyDetector_impl.track, h1, h2]
    rw [ht]
    exact ⟨rfl, _, rfl, acquiredMeta_isAcquired _ _⟩
  · have ht : s.track now found.numSignals
        = ⟨{ s with endup := now }, false, false, true, false⟩ := by
      simp [MesaEnergyDetector_impl.track, h1, h2]
    rw [ht]
    exact ⟨rfl, rfl⟩
  · have ht : s.track now found.numSignals
        = ⟨{ s with d_startInitialized := false }, false, true, false, false⟩ := by
      simp only [MesaEnergyDetector_impl.track, if_neg h1, h2, if_pos h3, if_true]
    rw [ht]
    exact ⟨rfl, _, rfl, lostMeta_isLost _⟩
  · have ht : s.track now found.numSignals = ⟨s, false, false, false, true⟩ := by
      simp only [MesaEnergyDetector_impl.track, if_neg h1, h2, if_neg h3, if_true]
    rw [ht]
    exact ⟨rfl, rfl⟩
  · have ht : s.track now found.numSignals = ⟨s, false, false, false, false⟩ := by
      simp [MesaEnergyDetector_impl.track, h1, h2]
    rw [ht]
    exact ⟨rfl, rfl⟩

/-- C13. The state step of `processData` is the four-case table, for every
state, clock reading `now` and analyzer answer (active is
`d_startInitialized`, acquiredAt is `startup`, lastSeenAt is `endup`):
signals and inactive give active with both times `now` and exactly one
Acquired PDU; signals and active move lastSeenAt to `now` and publish nothing;
no signals and active give, when `now - lastSeenAt > holdUpSec`, inactive with
exactly one Lost PDU, and otherwise the same state and nothing published; no
signals and inactive give the same state and nothing published. Nothing else
is published on `signaldetect`. -/
theorem tracker_step (s : MesaEnergyDetector_impl) (now : ℚ) (input : List gr_complex)
    (found : Found) (pMetadata : Option Dict) :
    (found.numSignals > 0 → s.d_startInitialized = false →
        (s.processData now input found pMetadata).state
          = { s with startup := now, endup := now, d_startInitialized := true }
        ∧ ∃ e, (s.processData now input found pMetadata).signaldetect = [e]
            ∧ isAcquired e = true ∧ isLost e = false)
    ∧ (found.numSignals > 0 → s.d_startInitialized = true →
        (s.processData now input found pMetadata).state = { s with endup := now }
        ∧ (s.processData now input found pMetadata).signaldetect = [])
    ∧ (¬ found.numSignals > 0 → s.d_startInitialized = true →
        now - s.endup > s.d_holdUpSec →
        (s.processData now input found pMetadata).state = { s with d_startInitialized := false }
        ∧ ∃ e, (s.processData now input found pMetadata).signaldetect = [e]
            ∧ isLost e = true ∧ isAcquired e = false)
    ∧ (¬ found.numSignals > 0 → s.d_startInitialized = true →
        ¬ now - s.endup > s.d_holdUpSec →
        (s.processData now input found pMetadata).state = s
        ∧ (s.processData now input found pMetadata).signaldetect = [])
    ∧ (¬ found.numSignals > 0 → s.d_startInitialized = false →
        (s.processData now input found pMetadata).state = s
        ∧ (s.processData now input found pMetadata).signaldetect = []) :=
  processData_cases s now input found pMetadata

/-- Witness for C13: the inactive sample detector sees one signal at time 3. -/
theorem tracker_step_witness :
    (sampleDetector.processData 3 [(1, 2)] (Found.ofList [⟨5, 6, -20⟩]) none).state
      = { sampleDetector with startup := 3, endup := 3, d_startInitialized := true }
    ∧ ∃ e, (sampleDetector.processData 3 [(1, 2)] (Found.ofList [⟨5, 6, -20⟩]) none).signaldetect
          = [e]
        ∧ isAcquired e = true ∧ isLost e = false :=
  (tracker_step sampleDetector 3 [(1, 2)] (Found.ofList [⟨5, 6, -20⟩]) none).1 (by decide) rfl

/-! ## C14: debounce over a run of blocks -/

theorem runCalls_append (s : MesaEnergyDetector_impl) (a b : List DetectorCall) :
    runCalls s (a ++ b)
      = ((runCalls (runCalls s a).1 b).1, (runCalls s a).2 ++ (runCalls (runCalls s a).1 b).2) := by
  induction a generalizing s with
  | nil => simp [runCalls]
  | cons c a ih => simp [runCalls, ih, List.append_assoc]

theorem runCalls_block (s : MesaEnergyDetector_impl) (b : Block) (cs : List DetectorCall) :
    runCalls s (.processData b :: cs)
      = ((runCalls (s.track b.now b.found.numSignals).state cs).1,
         (s.processData b.now b.input b.found b.pMetadata).signaldetect
           ++ (runCalls (s.track b.now b.found.numSignals).state cs).2) := rfl

/-- Blocks with signals, processed while active: nothing is published. -/
theorem present_active (l : List Block) (s : MesaEnergyDetector_impl)
    (hs : s.d_startInitialized = true) (hl : ∀ b ∈ l, b.present) :
    (runCalls s (blockCalls l)).2 = []
    ∧ (runCalls s (blockCalls l)).1.d_startInitialized = true := by
  induction l generalizing s with
  | nil => exact ⟨rfl, hs⟩
  | cons b l ih =>
    have hb : b.found.numSignals > 0 := hl b (List.mem_cons_self _ _)
    have ht := (processData_cases s b.now b.input b.found b.pMetadata).2.1 hb hs
    have hst : (s.track b.now b.found.numSignals).state = { s with endup := b.now } := ht.1
    have ih' := ih { s with endup := b.now } hs (fun x hx => hl x (List.mem_cons_of_mem _ hx))
    simp only [blockCalls, List.map_cons] at ih' ⊢
    rw [runCalls_block, hst, ht.2]
    exact ih'

/-- Blocks with signals, processed while active: the last one leaves its
clock reading in `endup` and nothing else changes. -/
theorem present_active_last (l : List Block) (last : Block) (s : MesaEnergyDetector_impl)
    (hs : s.d_startInitialized = true) (hl : ∀ b ∈ l ++ [last], b.present) :
    runCalls s (blockCalls (l ++ [last])) = ({ s with endup := last.now }, []) := by
  induction l generalizing s with
  | nil =>
    have hb : last.found.numSignals > 0 := hl last (by simp)
    have ht := (processData_cases s last.now last.input last.found last.pMetadata).2.1 hb hs
    have hst : (s.track last.now last.found.numSignals).state = { s with endup := last.now } :=
      ht.1
    simp only [blockCalls, List.nil_append, List.map_cons, List.map_nil]
    rw [runCalls_block, hst, ht.2]
    rfl
  | cons b l ih =>
    have hb : b.found.numSignals > 0 := hl b (by simp)
    have ht := (processData_cases s b.now b.input b.found b.pMetadata).2.1 hb hs
    have hst : (s.track b.now b.found.numSignals).state = { s with endup := b.now } := ht.1
    have ih' := ih { s with endup := b.now } hs
      (fun x hx => hl x (by simp only [List.cons_append, List.mem_cons]; exact Or.inr hx))
    simp only [blockCalls, List.cons_append, List.map_cons] at ih' ⊢
    rw [runCalls_block, hst, ht.2, ih']
    rfl

/-- One or more blocks with signals, processed from the inactive state: one
Acquired PDU, and the last block leaves its clock reading in `endup`. -/
theorem present_inactive_last (l : List Block) (last : Block) (s : MesaEnergyDetector_impl)
    (hs : s.d_startInitialized = false) (hl : ∀ b ∈ l ++ [last], b.present) :
    ∃ t0 e, runCalls s (blockCalls (l ++ [last]))
        = ({ s with startup := t0, endup := last.now, d_startInitialized := true }, [e])
      ∧ isAcquired e = true ∧ isLost e = false := by
  cases l with
  | nil =>
    have hb : last.found.numSignals > 0 := hl last (by simp)
    obtain ⟨h1, e, h2, h3, h4⟩ :=
      (processData_cases s last.now last.input last.found last.pMetadata).1 hb hs
    have hst : (s.track last.now last.found.numSignals).state
        = { s with startup := last.now, endup := last.now, d_startInitialized := true } := h1
    refine ⟨last.now, e, ?_, h3, h4⟩
    simp only [blockCalls, List.nil_append, List.map_cons, List.map_nil]
    rw [runCalls_block, hst, h2]
    rfl
  | cons b l =>
    have hb : b.found.numSignals > 0 := hl b (by simp)
    obtain ⟨h1, e, h2, h3, h4⟩ := (processData_cases s b.now b.input b.found b.pMetadata).1 hb hs
    have hst : (s.track b.now b.found.numSignals).state
        = { s with startup := b.now, endup := b.now, d_startInitialized := true } := h1
    have hrest := present_active_last l last
      { s with startup := b.now, endup := b.now, d_startInitialized := true } rfl
      (fun x hx => hl x (by simp only [List.cons_append, List.mem_cons]; exact Or.inr hx))
    refine ⟨b.now, e, ?_, h3, h4⟩
    simp only [blockCalls, List.cons_append, List.map_cons] at hrest ⊢
    rw [runCalls_block, hst, h2, hrest]
    rfl

/-- One or more blocks with signals, processed from the inactive state: one
Acquired PDU. -/
theorem present_inactive (l : List Block) (s : MesaEnergyDetector_impl)
    (hs : s.d_startInitialized = false) (hne : l ≠ []) (hl : ∀ b ∈ l, b.present) :
    ∃ e, (runCalls s (blockCalls l)).2 = [e] ∧ isAcquired e = true ∧ isLost e = false := by
  cases l with
  | nil => exact absurd rfl hne
  | cons b l =>
    have hb : b.found.numSignals > 0 := hl b (by simp)
    obtain ⟨h1, e, h2, h3, h4⟩ := (processData_cases s b.now b.input b.found b.pMetadata).1 hb hs
    have hst : (s.track b.now b.found.numSignals).state
        = { s with startup := b.now, endup := b.now, d_startInitialized := true } := h1
    have hrest := present_active l
      { s with startup := b.now, endup := b.now, d_startInitialized := true } rfl
      (fun x hx => hl x (List.mem_cons_of_mem _ hx))
    refine ⟨e, ?_, h3, h4⟩
    simp only [blockCalls, List.map_cons] at hrest ⊢
    rw [runCalls_block, hst, h2, hrest.1]
    rfl

/-- Blocks without signals, processed while inactive: nothing happens. -/
theorem absent_inactive (l : List Block) (s : MesaEnergyDetector_impl)
    (hs : s.d_startInitialized = false) (hl : ∀ b ∈ l, ¬ b.present) :
    runCalls s (blockCalls l) = (s, []) := by
  induction l with
  | nil => rfl
  | cons b l ih =>
    have hb : ¬ b.found.numSignals > 0 := hl b (by simp)
    have ht := (processData_cases s b.now b.input b.found b.pMetadata).2.2.2.2 hb hs
    have hst : (s.track b.now b.found.numSignals).state = s := ht.1
    have ih' := ih (fun x hx => hl x (List.mem_cons_of_mem _ hx))
    simp only [blockCalls, List.map_cons] at ih' ⊢
    rw [runCalls_block, hst, ht.2, ih']
    rfl

/-- Blocks without signals, processed while active: nothing happens as long as
every clock reading is within the hold-up time of `endup`; the first reading
beyond it gives the one Lost PDU. -/
theorem absent_active (l : List Block) (s : MesaEnergyDetector_impl)
    (hs : s.d_startInitialized = true) (hl : ∀ b ∈ l, ¬ b.present) :
    ((∀ b ∈ l, b.now ≤ s.endup + s.d_holdUpSec) → runCalls s (blockCalls l) = (s, []))
    ∧ ((∃ b ∈ l, b.now > s.endup + s.d_holdUpSec) →
        ∃ e, runCalls s (blockCalls l) = ({ s with d_startInitialized := false }, [e])
          ∧ isLost e = true ∧ isAcquired e = false) := by
  induction l with
  | nil => exact ⟨fun _ => rfl, fun ⟨b, hb, _⟩ => absurd hb (List.not_mem_nil b)⟩
  | cons b l ih =>
    have hb : ¬ b.found.numSignals > 0 := hl b (by simp)
    obtain ⟨ihA, ihB⟩ := ih (fun x hx => hl x (List.mem_cons_of_mem _ hx))
    by_cases hlate : b.now - s.endup > s.d_holdUpSec
    · obtain ⟨h1, e, h2, h3, h4⟩ :=
        (processData_cases s b.now b.input b.found b.pMetadata).2.2.1 hb hs hlate
      have hst : (s.track b.now b.found.numSignals).state
          = { s with d_startInitialized := false } := h1
      have hrest := absent_inactive l { s with d_startInitialized := false } rfl
        (fun x hx => hl x (List.mem_cons_of_mem _ hx))
      have hrun : runCalls s (blockCalls (b :: l))
          = ({ s with d_startInitialized := false }, [e]) := by
        simp only [blockCalls, List.map_cons] at hrest ⊢
        rw [runCalls_block, hst, h2, hrest]
        rfl
      refine ⟨fun hall => ?_, fun _ => ⟨e, hrun, h3, h4⟩⟩
      have := hall b (by simp)
      linarith
    · have ht := (processData_cases s b.now b.input b.found b.pMetadata).2.2.2.1 hb hs hlate
      have hst : (s.track b.now b.found.numSignals).state = s := ht.1
      have hrun : runCalls s (blockCalls (b :: l)) = runCalls s (blockCalls l) := by
        simp only [blockCalls, List.map_cons]
        rw [runCalls_block, hst, ht.2]
        rfl
      rw [hrun]
      refine ⟨fun hall => ihA (fun x hx => hall x (List.mem_cons_of_mem _ hx)), ?_⟩
      rintro ⟨x, hx, hxl⟩
      rcases List.mem_cons.mp hx with rfl | hx'
      · exact absurd (by linarith) hlate
      · exact ihB ⟨x, hx', hxl⟩

/-- C14. Starting inactive, process one or more blocks with signals (the last
at time `last.now`), then blocks without signals, then one or more blocks with
signals. If every block without signals is processed at a time at most
`last.now + holdUpSec`, the whole run publishes exactly one PDU on
`signaldetect`, an Acquired one, and no Lost PDU. If some block without
signals is processed later than `last.now + holdUpSec`, the run publishes
exactly three: Acquired, then one Lost for that absence, then a new Acquired
from the blocks with signals that follow. -/
theorem acquisition_debounce (s : MesaEnergyDetector_impl) (p1 : List Block) (last : Block)
    (gap p3 : List Block) (hs : s.d_startInitialized = false)
    (hp1 : ∀ b ∈ p1 ++ [last], b.present) (hg : ∀ b ∈ gap, ¬ b.present)
    (hne : p3 ≠ []) (hp3 : ∀ b ∈ p3, b.present) :
    ((∀ b ∈ gap, b.now ≤ last.now + s.d_holdUpSec) →
        ∃ e, (runCalls s (blockCalls (p1 ++ [last] ++ gap ++ p3))).2 = [e]
          ∧ isAcquired e = true ∧ isLost e = false)
    ∧ ((∃ b ∈ gap, b.now > last.now + s.d_holdUpSec) →
        ∃ e1 e2 e3, (runCalls s (blockCalls (p1 ++ [last] ++ gap ++ p3))).2 = [e1, e2, e3]
          ∧ isAcquired e1 = true ∧ isLost e1 = false
          ∧ isLost e2 = true ∧ isAcquired e2 = false
          ∧ isAcquired e3 = true ∧ isLost e3 = false) := by
  obtain ⟨t0, e1, h1, ha1, hl1⟩ := present_inactive_last p1 last s hs hp1
  obtain ⟨hA, hB⟩ := absent_active gap
    { s with startup := t0, endup := last.now, d_startInitialized := true } rfl hg
  have hsplit : runCalls s (blockCalls (p1 ++ [last] ++ gap ++ p3))
      = ((runCalls (runCalls (runCalls s (blockCalls (p1 ++ [last]))).1 (blockCalls gap)).1
            (blockCalls p3)).1,
         ((runCalls s (blockCalls (p1 ++ [last]))).2
            ++ (runCalls (runCalls s (blockCalls (p1 ++ [last]))).1 (blockCalls gap)).2)
            ++ (runCalls (runCalls (runCalls s (blockCalls (p1 ++ [last]))).1
                  (blockCalls gap)).1 (blockCalls p3)).2) := by
    simp only [blockCalls, List.map_append]
    rw [runCalls_append, runCalls_append]
  rw [hsplit, h1]
  constructor
  · intro hall
    rw [hA hall]
    have h3 := present_active p3
      { s with startup := t0, endup := last.now, d_startInitialized := true } rfl hp3
    exact ⟨e1, by simp only [h3.1, List.append_nil], ha1, hl1⟩
  · intro hex
    obtain ⟨e2, h2, hl2, ha2⟩ := hB hex
    rw [h2]
    obtain ⟨e3, h3, ha3, hl3⟩ := present_inactive p3
      { s with startup := t0, endup := last.now, d_startInitialized := false } rfl hne hp3
    exact ⟨e1, e2, e3, by simp only [h3]; rfl, ha1, hl1, hl2, ha2, ha3, hl3⟩

/-- Witness for C14: hold-up 0.5 s; signals at 0 and 1, none at 1.2 and 1.5,
signals again at 1.6: one Acquired PDU in all. With no signals at 1.2 and 2
instead: Acquired, Lost, Acquired. -/
theorem acquisition_debounce_witness :
    sampleDetector.d_startInitialized = false
    ∧ (∀ b ∈ [blockAt 0 [⟨5, 6, -20⟩]] ++ [blockAt 1 [⟨5, 6, -20⟩]], b.present)
    ∧ (∀ b ∈ [blockAt (6 / 5) [], blockAt (3 / 2) []], ¬ b.present)
    ∧ (∀ b ∈ [blockAt (6 / 5) [], blockAt (3 / 2) []],
        b.now ≤ (blockAt 1 [⟨5, 6, -20⟩]).now + sampleDetector.d_holdUpSec)
    ∧ (∃ e, (runCalls sampleDetector (blockCalls ([blockAt 0 [⟨5, 6, -20⟩]]
          ++ [blockAt 1 [⟨5, 6, -20⟩]] ++ [blockAt (6 / 5) [], blockAt (3 / 2) []]
          ++ [blockAt (8 / 5) [⟨5, 6, -20⟩]]))).2 = [e]
        ∧ isAcquired e = true ∧ isLost e = false)
    ∧ (∃ e1 e2 e3, (runCalls sampleDetector (blockCalls ([blockAt 0 [⟨5, 6, -20⟩]]
          ++ [blockAt 1 [⟨5, 6, -20⟩]] ++ [blockAt (6 / 5) [], blockAt 2 []]
          ++ [blockAt (5 / 2) [⟨5, 6, -20⟩]]))).2 = [e1, e2, e3]
        ∧ isAcquired e1 = true ∧ isLost e1 = false
        ∧ isLost e2 = true ∧ isAcquired e2 = false
        ∧ isAcquired e3 = true ∧ isLost e3 = false) :=
  have hgap : ∀ b ∈ [blockAt (6 / 5) [], blockAt (3 / 2) []],
      b.now ≤ (blockAt 1 [⟨5, 6, -20⟩]).now + sampleDetector.d_holdUpSec := by
    intro b hb
    simp only [List.mem_cons, List.mem_singleton, List.not_mem_nil, or_false] at hb
    rcases hb with rfl | rfl <;>
      norm_num [blockAt, sampleDetector, MesaEnergyDetector_impl.make]
  have hlate : ∃ b ∈ [blockAt (6 / 5) [], blockAt 2 []],
      b.now > (blockAt 1 [⟨5, 6, -20⟩]).now + sampleDetector.d_holdUpSec :=
    ⟨blockAt 2 [], by simp, by norm_num [blockAt, sampleDetector, MesaEnergyDetector_impl.make]⟩
  ⟨rfl, by decide, by decide, hgap,
    (acquisition_debounce sampleDetector [blockAt 0 [⟨5, 6, -20⟩]] (blockAt 1 [⟨5, 6, -20⟩])
      [blockAt (6 / 5) [], blockAt (3 / 2) []] [blockAt (8 / 5) [⟨5, 6, -20⟩]] rfl
      (by decide) (by decide) (by simp) (by decide)).1 hgap,
    (acquisition_debounce sampleDetector [blockAt 0 [⟨5, 6, -20⟩]] (blockAt 1 [⟨5, 6, -20⟩])
      [blockAt (6 / 5) [], blockAt 2 []] [blockAt (5 / 2) [⟨5, 6, -20⟩]] rfl
      (by decide) (by decide) (by simp) (by decide)).2 hlate⟩

/-! ## C15: the strongest signal of the Acquired PDU -/

/-- The loop of lines 279-285 started at `acc`: it keeps `acc` when no entry is
stronger, and otherwise ends at the first entry of maximum power. -/
theorem strongest_foldl (l : List SignalOverview) (acc : ℚ × ℚ × ℚ) :
    ((∀ d ∈ l, d.maxPower ≤ acc.2.2) →
        l.foldl MesaEnergyDetector_impl.strongestStep acc = acc)
    ∧ ((∃ d ∈ l, d.maxPower > acc.2.2) →
        ∃ pre d post, l = pre ++ d :: post
          ∧ (∀ x ∈ pre, x.maxPower < d.maxPower)
          ∧ (∀ x ∈ post, x.maxPower ≤ d.maxPower)
          ∧ acc.2.2 < d.maxPower
          ∧ l.foldl MesaEnergyDetector_impl.strongestStep acc
              = (d.centerFreqHz, d.widthHz, d.maxPower)) := by
  induction l generalizing acc with
  | nil => exact ⟨fun _ => rfl, fun ⟨d, hd, _⟩ => absurd hd (List.not_mem_nil d)⟩
  | cons a l ih =>
    by_cases ha : a.maxPower > acc.2.2
    · have hstep : MesaEnergyDetector_impl.strongestStep acc a
          = (a.centerFreqHz, a.widthHz, a.maxPower) := by
        simp [MesaEnergyDetector_impl.strongestStep, ha]
      obtain ⟨ih1, ih2⟩ := ih (a.centerFreqHz, a.widthHz, a.maxPower)
      refine ⟨fun hall => absurd (hall a (by simp)) (not_le.mpr ha), fun _ => ?_⟩
      simp only [List.foldl_cons, hstep]
      by_cases hmore : ∃ d ∈ l, d.maxPower > a.maxPower
      · obtain ⟨pre, d, post, hl, hpre, hpost, hlt, hres⟩ := ih2 hmore
        refine ⟨a :: pre, d, post, by rw [hl]; rfl, ?_, hpost, lt_trans ha hlt, hres⟩
        intro x hx
        rcases List.mem_cons.mp hx with rfl | hx'
        · exact hlt
        · exact hpre x hx'
      · have hall : ∀ d ∈ l, d.maxPower ≤ a.maxPower := by
          intro d hd
          by_contra hcon
          exact hmore ⟨d, hd, not_le.mp hcon⟩
        exact ⟨[], a, l, rfl, fun x hx => absurd hx (List.not_mem_nil x), hall, ha, ih1 hall⟩
    · have hstep : MesaEnergyDetector_impl.strongestStep acc a = acc := by
        simp [MesaEnergyDetector_impl.strongestStep, ha]
      obtain ⟨ih1, ih2⟩ := ih acc
      simp only [List.foldl_cons, hstep]
      refine ⟨fun hall => ih1 (fun d hd => hall d (List.mem_cons_of_mem _ hd)), ?_⟩
      rintro ⟨d, hd, hgt⟩
      rcases List.mem_cons.mp hd with rfl | hd'
      · exact absurd hgt ha
      · obtain ⟨pre, d', post, hl, hpre, hpost, hlt, hres⟩ := ih2 ⟨d, hd', hgt⟩
        refine ⟨a :: pre, d', post, by rw [hl]; rfl, ?_, hpost, hlt, hres⟩
        intro x hx
        rcases List.mem_cons.mp hx with rfl | hx'
        · exact lt_of_le_of_lt (not_lt.mp ha) hlt
        · exact hpre x hx'

/-- The entries of the Acquired PDU. -/
theorem acquiredMeta_entries (s : MesaEnergyDetector_impl) (l : List SignalOverview)
    (not_found : Pmt) :
    dict_ref (MesaEnergyDetector_impl.acquiredMeta s l) "state" not_found = .long 1
    ∧ dict_ref (MesaEnergyDetector_impl.acquiredMeta s l) "numsignals" not_found
        = .long l.length
    ∧ dict_ref (MesaEnergyDetector_impl.acquiredMeta s l) "radioFreq" not_found
        = .real s.d_centerFreq
    ∧ dict_ref (MesaEnergyDetector_impl.acquiredMeta s l) "sampleRate" not_found
        = .real s.d_sampleRate
    ∧ dict_ref (MesaEnergyDetector_impl.acquiredMeta s l) "strongestCenterFreq" not_found
        = .real (MesaEnergyDetector_impl.strongest l).1
    ∧ dict_ref (MesaEnergyDetector_impl.acquiredMeta s l) "strongestWidthHz" not_found
        = .real (MesaEnergyDetector_impl.strongest l).2.1
    ∧ dict_ref (MesaEnergyDetector_impl.acquiredMeta s l) "strongestPower" not_found
        = .real (MesaEnergyDetector_impl.strongest l).2.2 := by
  refine ⟨?_, ?_, ?_, ?_, ?_, ?_, ?_⟩ <;>
    simp [MesaEnergyDetector_impl.acquiredMeta, dict_ref, dict_add, make_dict, List.lookup]

/-- C15, counterexample. A single descriptor with centre 100, width 10 and
peak power -1000 triggers acquisition; the Acquired PDU reports centre 0,
width 0 and power -999, not the descriptor's values. -/
theorem acquired_strongest_below_sentinel :
    (sampleDetector.processData 0 [(1, 0)] (Found.ofList [⟨100, 10, -1000⟩]) none).signaldetect.map
        (fun e => (isAcquired e, dict_ref e "strongestCenterFreq" (.long 0),
          dict_ref e "strongestWidthHz" (.long 0), dict_ref e "strongestPower" (.long 0)))
      = [(true, .real 0, .real 0, .real (-999))] := by
  decide

/-- C15, amended. When the block that triggers acquisition has at least one
descriptor of peak power above -999, the Acquired PDU carries the centre
frequency, width and power of the descriptor of maximum peak power, the first
such in list order when several share the maximum; its `numsignals` is the
list length and it carries the current radio centre frequency and sample
rate. -/
theorem acquired_strongest (s : MesaEnergyDetector_impl) (now : ℚ) (input : List gr_complex)
    (l : List SignalOverview) (pMetadata : Option Dict)
    (hs : s.d_startInitialized = false) (hmax : ∃ d ∈ l, d.maxPower > -999) :
    ∃ pre d post e, l = pre ++ d :: post
      ∧ (∀ x ∈ pre, x.maxPower < d.maxPower)
      ∧ (∀ x ∈ post, x.maxPower ≤ d.maxPower)
      ∧ (s.processData now input (Found.ofList l) pMetadata).signaldetect = [e]
      ∧ isAcquired e = true
      ∧ (∀ not_found, dict_ref e "strongestCenterFreq" not_found = .real d.centerFreqHz)
      ∧ (∀ not_found, dict_ref e "strongestWidthHz" not_found = .real d.widthHz)
      ∧ (∀ not_found, dict_ref e "strongestPower" not_found = .real d.maxPower)
      ∧ (∀ not_found, dict_ref e "numsignals" not_found = .long l.length)
      ∧ (∀ not_found, dict_ref e "radioFreq" not_found = .real s.d_centerFreq)
      ∧ (∀ not_found, dict_ref e "sampleRate" not_found = .real s.d_sampleRate) := by
  obtain ⟨pre, d, post, hl, hpre, hpost, -, hres⟩ := (strongest_foldl l (0, 0, -999)).2 hmax
  have hpos : (Found.ofList l).numSignals > 0 := by
    simp only [Found.ofList, hl, List.length_append, List.length_cons]
    push_cast
    omega
  have ht : s.track now (Found.ofList l).numSignals
      = ⟨{ s with startup := now, endup := now, d_startInitialized := true },
          true, false, true, false⟩ := by
    simp [MesaEnergyDetector_impl.track, hpos, hs]
  obtain ⟨-, he⟩ := processData_state s now input (Found.ofList l) pMetadata
  rw [ht] at he
  have hstr : MesaEnergyDetector_impl.strongest l = (d.centerFreqHz, d.widthHz, d.maxPower) :=
    hres
  have hent := fun nf => acquiredMeta_entries
    { s with startup := now, endup := now, d_startInitialized := true } l nf
  refine ⟨pre, d, post, _, hl, hpre, hpost, he, (acquiredMeta_isAcquired _ _).1, ?_, ?_, ?_,
    fun nf => (hent nf).2.1, fun nf => (hent nf).2.2.1, fun nf => (hent nf).2.2.2.1⟩
  · intro nf
    have := (hent nf).2.2.2.2.1
    rw [hstr] at this
    exact this
  · intro nf
    have := (hent nf).2.2.2.2.2.1
    rw [hstr] at this
    exact this
  · intro nf
    have := (hent nf).2.2.2.2.2.2
    rw [hstr] at this
    exact this

/-- Witness for C15 as amended: three descriptors with powers -30, -20, -20;
the first of the two strongest is reported. -/
theorem acquired_strongest_witness :
    sampleDetector.d_startInitialized = false
    ∧ (∃ d ∈ [(⟨1, 2, -30⟩ : SignalOverview), ⟨5, 6, -20⟩, ⟨7, 8, -20⟩], d.maxPower > -999)
    ∧ ∃ pre d post e,
        [(⟨1, 2, -30⟩ : SignalOverview), ⟨5, 6, -20⟩, ⟨7, 8, -20⟩] = pre ++ d :: post
      ∧ (∀ x ∈ pre, x.maxPower < d.maxPower)
      ∧ (∀ x ∈ post, x.maxPower ≤ d.maxPower)
      ∧ (sampleDetector.processData 0 [(1, 0)]
          (Found.ofList [⟨1, 2, -30⟩, ⟨5, 6, -20⟩, ⟨7, 8, -20⟩]) none).signaldetect = [e]
      ∧ isAcquired e = true
      ∧ (∀ not_found, dict_ref e "strongestCenterFreq" not_found = .real d.centerFreqHz)
      ∧ (∀ not_found, dict_ref e "strongestWidthHz" not_found = .real d.widthHz)
      ∧ (∀ not_found, dict_ref e "strongestPower" not_found = .real d.maxPower)
      ∧ (∀ not_found, dict_ref e "numsignals" not_found
          = .long [(⟨1, 2, -30⟩ : SignalOverview), ⟨5, 6, -20⟩, ⟨7, 8, -20⟩].length)
      ∧ (∀ not_found, dict_ref e "radioFreq" not_found = .real sampleDetector.d_centerFreq)
      ∧ (∀ not_found, dict_ref e "sampleRate" not_found = .real sampleDetector.d_sampleRate) :=
  have h : ∃ d ∈ [(⟨1, 2, -30⟩ : SignalOverview), ⟨5, 6, -20⟩, ⟨7, 8, -20⟩],
      d.maxPower > -999 := ⟨⟨1, 2, -30⟩, by simp, by norm_num⟩
  ⟨rfl, h, acquired_strongest sampleDetector 0 [(1, 0)] _ none rfl h⟩

/-! ## C16: `setCenterFrequency` -/

/-- What `setCenterFrequency` publishes and what it leaves behind. -/
theorem setCenterFrequency_cases (s : MesaEnergyDetector_impl) (f : ℚ) :
    (s.d_startInitialized = true →
        ∃ e, (s.setCenterFrequency f).2 = [e] ∧ isLost e = true ∧ isAcquired e = false)
    ∧ (s.d_startInitialized = false → (s.setCenterFrequency f).2 = [])
    ∧ (s.setCenterFrequency f).1 = { s with d_startInitialized := false, d_centerFreq := f }
    ∧ (s.setCenterFrequency f).1.d_startInitialized = false
    ∧ (s.setCenterFrequency f).1.d_centerFreq = f
    ∧ (s.setCenterFrequency f).1.getCenterFrequency = f := by
  cases hs : s.d_startInitialized
  · have h : s.setCenterFrequency f = ({ s with d_centerFreq := f }, []) := by
      simp [MesaEnergyDetector_impl.setCenterFrequency, hs]
    rw [h]
    refine ⟨fun hc => absurd hc (by simp), fun _ => rfl, ?_, hs, rfl, rfl⟩
    cases s
    simp only [MesaEnergyDetector_impl.mk.injEq, true_and, and_true] at hs ⊢
    simpa using hs
  · have h : s.setCenterFrequency f
        = ({ s with d_startInitialized := false, d_centerFreq := f },
            [dict_add make_dict "state" (.long 0)]) := by
      simp [MesaEnergyDetector_impl.setCenterFrequency, hs]
    rw [h]
    refine ⟨fun _ => ⟨_, rfl, by decide, by decide⟩, fun hc => absurd hc (by simp), rfl, rfl,
      rfl, rfl⟩

/-- C16. `setCenterFrequency(f)` in the active state publishes exactly one
Lost PDU and leaves the state inactive; in the inactive state it publishes
nothing and the state stays inactive. Either way the centre frequency becomes
`f`, `getCenterFrequency` returns `f`, and every other member keeps its
value. -/
theorem setCenterFrequency_effect (s : MesaEnergyDetector_impl) (f : ℚ) :
    (s.d_startInitialized = true →
        ∃ e, (s.setCenterFrequency f).2 = [e] ∧ isLost e = true ∧ isAcquired e = false)
    ∧ (s.d_startInitialized = false → (s.setCenterFrequency f).2 = [])
    ∧ (s.setCenterFrequency f).1 = { s with d_startInitialized := false, d_centerFreq := f }
    ∧ (s.setCenterFrequency f).1.d_startInitialized = false
    ∧ (s.setCenterFrequency f).1.d_centerFreq = f
    ∧ (s.setCenterFrequency f).1.getCenterFrequency = f :=
  setCenterFrequency_cases s f

/-- Witness for C16: the sample detector, active since time 3, is retuned to
433 MHz. -/
theorem setCenterFrequency_effect_witness :
    ∃ e, (MesaEnergyDetector_impl.setCenterFrequency
            { sampleDetector with startup := 3, endup := 3, d_startInitialized := true }
            433000000).2 = [e]
      ∧ isLost e = true ∧ isAcquired e = false :=
  (setCenterFrequency_effect
    { sampleDetector with startup := 3, endup := 3, d_startInitialized := true } 433000000).1 rfl

/-! ## C17: the number of signal PDUs -/

/-- The state tracking changes the flag and the two time points only. -/
theorem track_frame (s : MesaEnergyDetector_impl) (now : ℚ) (numSignals : Int) :
    (s.track now numSignals).state.d_genSignalPDUs = s.d_genSignalPDUs
    ∧ (s.track now numSignals).state.d_centerFreq = s.d_centerFreq
    ∧ (s.track now numSignals).state.d_sampleRate = s.d_sampleRate
    ∧ (s.track now numSignals).state.d_minWidthHz = s.d_minWidthHz
    ∧ (s.track now numSignals).state.d_maxWidthHz = s.d_maxWidthHz
    ∧ (s.track now numSignals).state.d_fftSize = s.d_fftSize
    ∧ (s.track now numSignals).state.d_holdUpSec = s.d_holdUpSec
    ∧ (s.track now numSignals).state.pEnergyAnalyzer = s.pEnergyAnalyzer := by
  dsimp only [MesaEnergyDetector_impl.track]
  split_ifs <;> exact ⟨rfl, rfl, rfl, rfl, rfl, rfl, rfl, rfl⟩

theorem segmentStep_length (s : MesaEnergyDetector_impl) (numSignals : Int)
    (data_out : List gr_complex) (l : List SignalOverview) (acc : Option Dict × List Pdu) :
    (l.foldl (MesaEnergyDetector_impl.segmentStep s numSignals data_out) acc).2.length
      = acc.2.length + l.length
    ∧ ((∀ e ∈ acc.2, e.data = data_out) →
        ∀ e ∈ (l.foldl (MesaEnergyDetector_impl.segmentStep s numSignals data_out) acc).2,
          e.data = data_out) := by
  induction l generalizing acc with
  | nil => exact ⟨rfl, fun h => h⟩
  | cons a l ih =>
    obtain ⟨ih1, ih2⟩ := ih (MesaEnergyDetector_impl.segmentStep s numSignals data_out acc a)
    have hlen : (MesaEnergyDetector_impl.segmentStep s numSignals data_out acc a).2.length
        = acc.2.length + 1 := by
      unfold MesaEnergyDetector_impl.segmentStep
      split <;> split <;> simp
    have hdata : (∀ e ∈ acc.2, e.data = data_out) →
        ∀ e ∈ (MesaEnergyDetector_impl.segmentStep s numSignals data_out acc a).2,
          e.data = data_out := by
      intro h e he
      unfold MesaEnergyDetector_impl.segmentStep at he
      split at he <;> split at he <;>
        (simp only [List.mem_append, List.mem_singleton] at he
         rcases he with he | he
         · exact h e he
         · rw [he])
    refine ⟨?_, fun h => ih2 (hdata h)⟩
    simp only [List.foldl_cons, ih1, hlen, List.length_cons]
    omega

/-- The part of C17 the code keeps: with signal PDUs enabled one PDU per
descriptor is published on `signals`, each with the whole input block; with
signal PDUs disabled none is published. -/
theorem signals_count (s : MesaEnergyDetector_impl) (now : ℚ) (input : List gr_complex)
    (found : Found) (pMetadata : Option Dict) :
    (s.d_genSignalPDUs = true →
        (s.processData now input found pMetadata).signals.length = found.signalVector.length
        ∧ ∀ e ∈ (s.processData now input found pMetadata).signals, e.data = input)
    ∧ (s.d_genSignalPDUs = false → (s.processData now input found pMetadata).signals = []) := by
  have hgen : (s.track now found.numSignals).state.d_genSignalPDUs = s.d_genSignalPDUs :=
    (track_frame s now found.numSignals).1
  constructor
  · intro h
    have hseg := segmentStep_length (s.track now found.numSignals).state found.numSignals input
      found.signalVector (pMetadata, [])
    have hsig : (s.processData now input found pMetadata).signals
        = (found.signalVector.foldl
            (MesaEnergyDetector_impl.segmentStep (s.track now found.numSignals).state
              found.numSignals input) (pMetadata, [])).2 := by
      simp only [MesaEnergyDetector_impl.processData, hgen, h, if_true]
    rw [hsig]
    exact ⟨by simpa using hseg.1, hseg.2 (fun e he => absurd he (List.not_mem_nil e))⟩
  · intro h
    simp [MesaEnergyDetector_impl.processData, hgen, h]

/-- C17 (the code misses it). With signal PDUs enabled and no descriptor found
the claim demands exactly one PDU on `signals` carrying a zero-valued
placeholder; the loop of `processData` runs once per entry of the empty
`signalVector`, so nothing is published, without caller metadata as with it. -/
theorem placeholder_segment_missing :
    sampleDetector.d_genSignalPDUs = true
    ∧ (sampleDetector.processData 0 [(1, 2), (3, 4)] (Found.ofList []) none).signals = []
    ∧ (sampleDetector.processData 0 [(1, 2), (3, 4)] (Found.ofList [])
        (some [("tag", .long 7)])).signals = []
    ∧ (sampleDetector.handleMsgIn 0 ⟨[("tag", .long 7)], [(1, 2), (3, 4)]⟩ (Found.ofList [])).map
        (fun r => r.signals) = some [] := by
  decide

/-! ## C18: the caller's metadata is never overwritten -/

theorem dict_has_key_iff (d : Dict) (k : String) :
    dict_has_key d k = true ↔ ∃ v, d.lookup k = some v := by
  induction d with
  | nil => simp [dict_has_key]
  | cons e d ih =>
    obtain ⟨k', v'⟩ := e
    by_cases hk : k = k'
    · subst hk
      simp [dict_has_key, List.lookup]
    · have hk' : (k == k') = false := by simpa using hk
      have hk'' : (k' == k) = false := by simpa using Ne.symm hk
      simp only [dict_has_key, List.any_cons, hk'', Bool.false_or, List.lookup, hk'] at ih ⊢
      exact ih

theorem lookup_filter_ne (d : Dict) (k k' : String) (hk : k ≠ k') :
    (d.filter (fun e => e.1 != k')).lookup k = d.lookup k := by
  induction d with
  | nil => rfl
  | cons e d ih =>
    obtain ⟨k1, v1⟩ := e
    by_cases h1 : k1 = k'
    · subst h1
      have hkk : (k == k1) = false := by simpa using hk
      simp [List.filter, List.lookup, hkk, ih]
    · have hne : (k1 != k') = true := by simpa using h1
      simp only [List.filter, hne, List.lookup, ih]

/-- A guarded addition keeps every entry that was there. -/
theorem addIfAbsent_keeps (d : Dict) (k' : String) (v' : Pmt) (k : String) (v : Pmt)
    (h : d.lookup k = some v) :
    (MesaEnergyDetector_impl.addIfAbsent d k' v').lookup k = some v := by
  unfold MesaEnergyDetector_impl.addIfAbsent
  by_cases hk' : dict_has_key d k' = true
  · simp [hk', h]
  · have hne : k ≠ k' := by
      rintro rfl
      exact hk' ((dict_has_key_iff d k).2 ⟨v, h⟩)
    have hb : (k == k') = false := by simpa using hne
    simp only [Bool.not_eq_true] at hk'
    simp only [hk', Bool.not_false, if_true, dict_add, List.lookup, hb,
      lookup_filter_ne d k k' hne, h]

/-- A guarded addition adds at most its own key. -/
theorem addIfAbsent_adds (d : Dict) (k' : String) (v' : Pmt) (k : String) (v : Pmt)
    (h : (MesaEnergyDetector_impl.addIfAbsent d k' v').lookup k = some v) :
    d.lookup k = some v ∨ k = k' := by
  unfold MesaEnergyDetector_impl.addIfAbsent at h
  by_cases hk' : dict_has_key d k' = true
  · simp only [hk', Bool.not_true, Bool.false_eq_true, if_false] at h
    exact Or.inl h
  · by_cases hne : k = k'
    · exact Or.inr hne
    · left
      have hb : (k == k') = false := by simpa using hne
      simp only [Bool.not_eq_true] at hk'
      simp only [hk', Bool.not_false, if_true, dict_add, List.lookup, hb,
        lookup_filter_ne d k k' hne] at h
      exact h

theorem filledFrom_mergedMeta (s : MesaEnergyDetector_impl) (m m' : Dict) (c w p : ℚ)
    (h : filledFrom m m') : filledFrom m (MesaEnergyDetector_impl.mergedMeta s m' c w p) := by
  obtain ⟨hkeep, hadd⟩ := h
  constructor
  · intro k v hk
    exact addIfAbsent_keeps _ _ _ _ _ (addIfAbsent_keeps _ _ _ _ _ (addIfAbsent_keeps _ _ _ _ _
      (addIfAbsent_keeps _ _ _ _ _ (addIfAbsent_keeps _ _ _ _ _ (hkeep k v hk)))))
  · intro k v hk
    rcases addIfAbsent_adds _ _ _ _ _ hk with h5 | h5
    · rcases addIfAbsent_adds _ _ _ _ _ h5 with h4 | h4
      · rcases addIfAbsent_adds _ _ _ _ _ h4 with h3 | h3
        · rcases addIfAbsent_adds _ _ _ _ _ h3 with h2 | h2
          · rcases addIfAbsent_adds _ _ _ _ _ h2 with h1 | h1
            · exact hadd k v h1
            · exact Or.inr (by simp [segmentKeys, h1])
          · exact Or.inr (by simp [segmentKeys, h2])
        · exact Or.inr (by simp [segmentKeys, h3])
      · exact Or.inr (by simp [segmentKeys, h4])
    · exact Or.inr (by simp [segmentKeys, h5])

theorem filledFrom_foldl (s : MesaEnergyDetector_impl) (numSignals : Int)
    (data_out : List gr_complex) (m : Dict) (l : List SignalOverview)
    (acc : Option Dict × List Pdu) (m' : Dict) (hacc : acc.1 = some m')
    (hm : filledFrom m m') (hev : ∀ e ∈ acc.2, filledFrom m e.meta) :
    ∀ e ∈ (l.foldl (MesaEnergyDetector_impl.segmentStep s numSignals data_out) acc).2,
      filledFrom m e.meta := by
  induction l generalizing acc m' with
  | nil => exact hev
  | cons a l ih =>
    simp only [List.foldl_cons]
    by_cases hn : numSignals > 0
    · have hstep : MesaEnergyDetector_impl.segmentStep s numSignals data_out acc a
          = (some (MesaEnergyDetector_impl.mergedMeta s m' a.centerFreqHz a.widthHz a.maxPower),
             acc.2 ++ [⟨MesaEnergyDetector_impl.mergedMeta s m' a.centerFreqHz a.widthHz
                          a.maxPower, data_out⟩]) := by
        simp only [MesaEnergyDetector_impl.segmentStep, if_pos hn, hacc]
      rw [hstep]
      have hmm := filledFrom_mergedMeta s m m' a.centerFreqHz a.widthHz a.maxPower hm
      refine ih _ _ rfl hmm (fun e he => ?_)
      rcases List.mem_append.mp he with he | he
      · exact hev e he
      · rw [List.mem_singleton.mp he]; exact hmm
    · have hstep : MesaEnergyDetector_impl.segmentStep s numSignals data_out acc a
          = (some (MesaEnergyDetector_impl.mergedMeta s m' 0 0 0),
             acc.2 ++ [⟨MesaEnergyDetector_impl.mergedMeta s m' 0 0 0, data_out⟩]) := by
        simp only [MesaEnergyDetector_impl.segmentStep, if_neg hn, hacc]
      rw [hstep]
      have hmm := filledFrom_mergedMeta s m m' 0 0 0 hm
      refine ih _ _ rfl hmm (fun e he => ?_)
      rcases List.mem_append.mp he with he | he
      · exact hev e he
      · rw [List.mem_singleton.mp he]; exact hmm

/-- C18. When `processData` is given caller metadata `m`, every PDU it
publishes on `signals` has, for every key of `m`, that key with the caller's
value; and a key of the PDU's metadata that is not a key of `m` is one of
`radioFreq`, `sampleRate`, `signalCenterFreq`, `widthHz`, `maxPower`. -/
theorem metadata_never_overwritten (s : MesaEnergyDetector_impl) (now : ℚ)
    (input : List gr_complex) (found : Found) (m : Dict) (e : Pdu)
    (he : e ∈ (s.processData now input found (some m)).signals) :
    (∀ k, dict_has_key m k = true →
        dict_has_key e.meta k = true
        ∧ ∀ not_found, dict_ref e.meta k not_found = dict_ref m k not_found)
    ∧ (∀ k, dict_has_key e.meta k = true → dict_has_key m k = true ∨ k ∈ segmentKeys) := by
  have hfill : filledFrom m e.meta := by
    by_cases hgen : (s.track now found.numSignals).state.d_genSignalPDUs = true
    · have hsig : (s.processData now input found (some m)).signals
          = (found.signalVector.foldl
              (MesaEnergyDetector_impl.segmentStep (s.track now found.numSignals).state
                found.numSignals input) (some m, [])).2 := by
        simp only [MesaEnergyDetector_impl.processData, hgen, if_true]
      rw [hsig] at he
      exact filledFrom_foldl _ _ _ m _ (some m, []) m rfl
        ⟨fun _ _ h => h, fun _ _ h => Or.inl h⟩ (fun x hx => absurd hx (List.not_mem_nil x)) e he
    · have hsig : (s.processData now input found (some m)).signals = [] := by
        simp [MesaEnergyDetector_impl.processData, hgen]
      rw [hsig] at he
      exact absurd he (List.not_mem_nil e)
  obtain ⟨hkeep, hadd⟩ := hfill
  constructor
  · intro k hk
    obtain ⟨v, hv⟩ := (dict_has_key_iff m k).1 hk
    have hv' := hkeep k v hv
    exact ⟨(dict_has_key_iff e.meta k).2 ⟨v, hv'⟩, fun nf => by simp [dict_ref, hv, hv']⟩
  · intro k hk
    obtain ⟨v, hv⟩ := (dict_has_key_iff e.meta k).1 hk
    rcases hadd k v hv with h | h
    · exact Or.inl ((dict_has_key_iff m k).2 ⟨v, h⟩)
    · exact Or.inr h

/-- Witness for C18: the caller supplies `widthHz` = 3 and `tag` = 7; two
descriptors are found; the second PDU still carries the caller's two
values. -/
theorem metadata_never_overwritten_witness :
    (⟨[("maxPower", .real (-20)), ("signalCenterFreq", .real 5), ("sampleRate", .real 1000000),
        ("radioFreq", .real 100000000), ("widthHz", .real 3), ("tag", .long 7)],
       [(1, 2)]⟩ : Pdu)
      ∈ (sampleDetector.processData 0 [(1, 2)] (Found.ofList [⟨5, 6, -20⟩, ⟨7, 8, -30⟩])
          (some [("widthHz", .real 3), ("tag", .long 7)])).signals
    ∧ dict_has_key [("widthHz", .real 3), ("tag", .long 7)] "widthHz" = true
    ∧ dict_ref [("maxPower", .real (-20)), ("signalCenterFreq", .real 5),
        ("sampleRate", .real 1000000), ("radioFreq", .real 100000000), ("widthHz", .real 3),
        ("tag", .long 7)] "widthHz" (.long 0)
      = dict_ref [("widthHz", .real 3), ("tag", .long 7)] "widthHz" (.long 0) :=
  have he : (⟨[("maxPower", .real (-20)), ("signalCenterFreq", .real 5),
        ("sampleRate", .real 1000000), ("radioFreq", .real 100000000), ("widthHz", .real 3),
        ("tag", .long 7)], [(1, 2)]⟩ : Pdu)
      ∈ (sampleDetector.processData 0 [(1, 2)] (Found.ofList [⟨5, 6, -20⟩, ⟨7, 8, -30⟩])
          (some [("widthHz", .real 3), ("tag", .long 7)])).signals := by decide
  ⟨he, by decide,
    ((metadata_never_overwritten sampleDetector 0 [(1, 2)] (Found.ofList [⟨5, 6, -20⟩, ⟨7, 8, -30⟩])
      [("widthHz", .real 3), ("tag", .long 7)] _ he).1 "widthHz" (by decide)).2 (.long 0)⟩

/-! ## C19: the duty cycle handed to the analyzer -/

/-- Every call leaves the analyzer's duty cycle equal to the value computed
from the current parameters, if it was so before. -/
theorem apply_dutyCycle (s : MesaEnergyDetector_impl) (c : DetectorCall)
    (h : s.pEnergyAnalyzer.minDutyCycle = s.calcMinDutyCycle) :
    (c.apply s).1.pEnergyAnalyzer.minDutyCycle = (c.apply s).1.calcMinDutyCycle := by
  cases c with
  | processData b =>
    have hf := track_frame s b.now b.found.numSignals
    show (s.track b.now b.found.numSignals).state.pEnergyAnalyzer.minDutyCycle
      = (s.track b.now b.found.numSignals).state.calcMinDutyCycle
    simp only [MesaEnergyDetector_impl.calcMinDutyCycle, hf.2.2.1, hf.2.2.2.1, hf.2.2.2.2.2.1,
      hf.2.2.2.2.2.2.2]
    exact h
  | setCenterFrequency v =>
    simp only [DetectorCall.apply, MesaEnergyDetector_impl.setCenterFrequency]
    split <;> exact h
  | setMinWidthHz v => rfl
  | setMaxWidthHz v => exact h
  | setSquelch v => exact h

theorem runCalls_dutyCycle (cs : List DetectorCall) (s : MesaEnergyDetector_impl)
    (h : s.pEnergyAnalyzer.minDutyCycle = s.calcMinDutyCycle) :
    (runCalls s cs).1.pEnergyAnalyzer.minDutyCycle = (runCalls s cs).1.calcMinDutyCycle := by
  induction cs generalizing s with
  | nil => exact h
  | cons c cs ih => exact ih _ (apply_dutyCycle s c h)

/-- C19. After construction and after any sequence of calls (in particular of
`setMinWidthHz` and `setMaxWidthHz`), the duty cycle held by the analyzer is
the value recomputed from the current parameters, namely
(minWidthHz / (sampleRate / fftSize)) / fftSize, which is minWidthHz /
sampleRate when sampleRate and fftSize are not zero; and each of the two
setters makes its getter return the new value. -/
theorem dutyCycle_forwarded (fftsize : Int) (squelchThreshold minWidthHz maxWidthHz
    radioCenterFreq sampleRate holdUpSec : ℚ) (framesToAvg : Int)
    (genSignalPDUs enableDebug : Bool) (cs : List DetectorCall) :
    (runCalls (MesaEnergyDetector_impl.make fftsize squelchThreshold minWidthHz maxWidthHz
        radioCenterFreq sampleRate holdUpSec framesToAvg genSignalPDUs enableDebug)
        cs).1.pEnergyAnalyzer.minDutyCycle
      = (runCalls (MesaEnergyDetector_impl.make fftsize squelchThreshold minWidthHz maxWidthHz
          radioCenterFreq sampleRate holdUpSec framesToAvg genSignalPDUs enableDebug)
          cs).1.calcMinDutyCycle
    ∧ (∀ s : MesaEnergyDetector_impl,
        s.calcMinDutyCycle = (s.d_minWidthHz / (s.d_sampleRate / s.d_fftSize)) / s.d_fftSize)
    ∧ (∀ s : MesaEnergyDetector_impl, s.d_sampleRate ≠ 0 → (s.d_fftSize : ℚ) ≠ 0 →
        s.calcMinDutyCycle = s.d_minWidthHz / s.d_sampleRate)
    ∧ (∀ (s : MesaEnergyDetector_impl) (v : ℚ), (s.setMinWidthHz v).getMinWidthHz = v)
    ∧ (∀ (s : MesaEnergyDetector_impl) (v : ℚ), (s.setMaxWidthHz v).getMaxWidthHz = v) := by
  refine ⟨runCalls_dutyCycle cs _ rfl, fun s => rfl, fun s h1 h2 => ?_, fun s v => rfl,
    fun s v => rfl⟩
  simp only [MesaEnergyDetector_impl.calcMinDutyCycle]
  field_simp
  ring

/-- Witness for C19: the sample detector (sample rate 1 MHz) after its widths
were changed; the last minimum width is 500 Hz, so the analyzer holds
500 / 1000000. -/
theorem dutyCycle_forwarded_witness :
    (runCalls sampleDetector widthChanges).1.pEnergyAnalyzer.minDutyCycle = 1 / 2000
    ∧ (runCalls sampleDetector widthChanges).1.getMinWidthHz = 500
    ∧ (runCalls sampleDetector widthChanges).1.getMaxWidthHz = 40000 := by
  have h := dutyCycle_forwarded 1024 (-60) 1000 50000 100000000 1000000 (1 / 2) 4 true false
    widthChanges
  have h3 := h.2.2.1 (runCalls sampleDetector widthChanges).1
  refine ⟨?_, rfl, rfl⟩
  rw [show (runCalls sampleDetector widthChanges).1.pEnergyAnalyzer.minDutyCycle
      = (runCalls sampleDetector widthChanges).1.calcMinDutyCycle from h.1]
  rw [h3 (by decide) (by decide)]
  norm_num [runCalls, widthChanges, DetectorCall.apply, sampleDetector,
    MesaEnergyDetector_impl.make, MesaEnergyDetector_impl.setMinWidthHz,
    MesaEnergyDetector_impl.setMaxWidthHz]

/-! ## C20: acquiredAt never after lastSeenAt -/

theorem apply_times (s : MesaEnergyDetector_impl) (c : DetectorCall) (cs : List DetectorCall)
    (hinv : s.d_startInitialized = true →
        s.startup ≤ s.endup ∧ ∀ t ∈ clockReadings (c :: cs), s.endup ≤ t)
    (hmono : (clockReadings (c :: cs)).Pairwise (· ≤ ·)) :
    ((c.apply s).1.d_startInitialized = true →
        (c.apply s).1.startup ≤ (c.apply s).1.endup
        ∧ ∀ t ∈ clockReadings cs, (c.apply s).1.endup ≤ t)
    ∧ (clockReadings cs).Pairwise (· ≤ ·) := by
  cases c with
  | processData b =>
    simp only [clockReadings, List.pairwise_cons, List.mem_cons, forall_eq_or_imp] at hinv hmono
    refine ⟨?_, hmono.2⟩
    have hst : (DetectorCall.apply s (.processData b)).1
        = (s.processData b.now b.input b.found b.pMetadata).state := rfl
    rw [hst]
    obtain ⟨c1, c2, c3, c4, c5⟩ := processData_cases s b.now b.input b.found b.pMetadata
    by_cases hn : b.found.numSignals > 0
    · by_cases ha : s.d_startInitialized = true
      · rw [(c2 hn ha).1]
        intro _
        obtain ⟨h5, h6, -⟩ := hinv ha
        exact ⟨le_trans h5 h6, hmono.1⟩
      · rw [(c1 hn (by simpa using ha)).1]
        intro _
        exact ⟨le_refl _, hmono.1⟩
    · by_cases ha : s.d_startInitialized = true
      · by_cases hl : b.now - s.endup > s.d_holdUpSec
        · rw [(c3 hn ha hl).1]
          intro h
          simp at h
        · rw [(c4 hn ha hl).1]
          intro hs
          obtain ⟨h5, -, h7⟩ := hinv hs
          exact ⟨h5, h7⟩
      · rw [(c5 hn (by simpa using ha)).1]
        intro hs
        exact absurd hs ha
  | setCenterFrequency v =>
    simp only [clockReadings] at hinv hmono
    refine ⟨?_, hmono⟩
    intro h
    have := (setCenterFrequency_cases s v).2.2.2.1
    simp only [DetectorCall.apply] at h
    rw [this] at h
    exact absurd h (by simp)
  | setMinWidthHz v => exact ⟨hinv, hmono⟩
  | setMaxWidthHz v => exact ⟨hinv, hmono⟩
  | setSquelch v => exact ⟨hinv, hmono⟩

theorem runCalls_times (cs : List DetectorCall) (s : MesaEnergyDetector_impl)
    (hinv : s.d_startInitialized = true →
        s.startup ≤ s.endup ∧ ∀ t ∈ clockReadings cs, s.endup ≤ t)
    (hmono : (clockReadings cs).Pairwise (· ≤ ·)) :
    (runCalls s cs).1.d_startInitialized = true →
      (runCalls s cs).1.startup ≤ (runCalls s cs).1.endup := by
  induction cs generalizing s with
  | nil => exact fun h => (hinv h).1
  | cons c cs ih =>
    obtain ⟨h1, h2⟩ := apply_times s c cs hinv hmono
    exact ih _ h1 h2

/-- C20. In every state reached from the freshly constructed (inactive)
detector by a sequence of calls whose clock readings do not decrease,
active implies acquiredAt <= lastSeenAt (`startup <= endup`). -/
theorem lastSeen_not_before_acquired (fftsize : Int) (squelchThreshold minWidthHz maxWidthHz
    radioCenterFreq sampleRate holdUpSec : ℚ) (framesToAvg : Int)
    (genSignalPDUs enableDebug : Bool) (cs : List DetectorCall)
    (hmono : (clockReadings cs).Pairwise (· ≤ ·)) :
    (runCalls (MesaEnergyDetector_impl.make fftsize squelchThreshold minWidthHz maxWidthHz
        radioCenterFreq sampleRate holdUpSec framesToAvg genSignalPDUs enableDebug)
        cs).1.d_startInitialized = true →
      (runCalls (MesaEnergyDetector_impl.make fftsize squelchThreshold minWidthHz maxWidthHz
          radioCenterFreq sampleRate holdUpSec framesToAvg genSignalPDUs enableDebug)
          cs).1.startup
        ≤ (runCalls (MesaEnergyDetector_impl.make fftsize squelchThreshold minWidthHz maxWidthHz
            radioCenterFreq sampleRate holdUpSec framesToAvg genSignalPDUs enableDebug)
            cs).1.endup :=
  runCalls_times cs _ (fun h => absurd h (by simp [MesaEnergyDetector_impl.make])) hmono

/-- Witness for C20: acquisition at 0, signal at 1, a retune, a new
acquisition at 2, signal at 3: the detector ends active with acquiredAt 2 and
lastSeenAt 3. -/
theorem lastSeen_not_before_acquired_witness :
    (clockReadings retuneRun).Pairwise (· ≤ ·)
    ∧ (runCalls sampleDetector retuneRun).1.d_startInitialized = true
    ∧ (runCalls sampleDetector retuneRun).1.startup = 2
    ∧ (runCalls sampleDetector retuneRun).1.endup = 3
    ∧ (runCalls sampleDetector retuneRun).1.startup ≤ (runCalls sampleDetector retuneRun).1.endup :=
  have hmono : (clockReadings retuneRun).Pairwise (· ≤ ·) := by decide
  have hact : (runCalls sampleDetector retuneRun).1.d_startInitialized = true := by decide
  ⟨hmono, hact, by decide, by decide,
    lastSeen_not_before_acquired 1024 (-60) 1000 50000 100000000 1000000 (1 / 2) 4 true false
      retuneRun hmono hact⟩

/-! ## C22: the current channel during hold-down -/

theorem heldDown_reached :
    Trace.run (Trace.start (SourceSelector_impl.make 1 4 2 1024))
        [.report 0 ⟨some 10, [(1, 0)]⟩ 1, .report (1 / 5) ⟨some 13, [(2, 0)]⟩ 2]
      = some ⟨heldDown, [1], [], [(1, 0)]⟩ := by
  have h1 := handleMsg_lockOn (SourceSelector_impl.make 1 4 2 1024) 0 ⟨some 10, [(1, 0)]⟩ 1 0 1
    rfl (by decide) rfl
    (by simp [recorded, SourceSelector_impl.make]; norm_num)
    (by rw [maxPowerIndex_eq]; simp [recorded, SourceSelector_impl.make]; norm_num)
    rfl
  have h2 := handleMsg_holdDown
    (lockedOn (SourceSelector_impl.make 1 4 2 1024) 0 ⟨some 10, [(1, 0)]⟩ 1 0)
    (1 / 5) ⟨some 13, [(2, 0)]⟩ 2 1 0 rfl (by decide) rfl rfl
    (by norm_num [lockedOn, queueData, recorded, SourceSelector_impl.make])
  simp only [Trace.run, Trace.step, Trace.start, h1, h2]
  rfl

/-- C22, counterexample. The block is Locked on channel 1 since time 0 and has
refused channel 2 (metric 13 against 10, the computed winner) at time 0.2,
within the hold time of 1 s. Channel 1 then reports its metric 10 again at
time 0.3, the hold-down still running: the report is not accepted, the queue
stays as it was and nothing is published. -/
theorem current_channel_dropped :
    Trace.run (Trace.start (SourceSelector_impl.make 1 4 2 1024))
        [.report 0 ⟨some 10, [(1, 0)]⟩ 1, .report (1 / 5) ⟨some 13, [(2, 0)]⟩ 2]
      = some ⟨heldDown, [1], [], [(1, 0)]⟩
    ∧ heldDown.d_startInitialized = true ∧ heldDown.d_currentInput = 1
    ∧ maxPowerIndex heldDown.maxPower + 1 = 2
    ∧ heldDown.maxPower 1 - heldDown.maxPower 0 > 2
    ∧ ¬ ((3 / 10 : ℚ) - heldDown.lastShifted > heldDown.d_holdTime)
    ∧ ∃ o, handleMsg heldDown (3 / 10) ⟨some 10, [(3, 0)]⟩ 1 = some o
        ∧ o.queued = false ∧ o.inputchange = []
        ∧ o.state.dataQueue = heldDown.dataQueue ∧ o.state.dataQueue = [(1, 0)] := by
  have hw : maxPowerIndex heldDown.maxPower + 1 = 2 := by
    rw [maxPowerIndex_eq]
    simp [heldDown, lockedOn, queueData, recorded, SourceSelector_impl.make]; norm_num
  have hw2 : maxPowerIndex (recorded heldDown 0 ⟨some 10, [(3, 0)]⟩).maxPower + 1 ≠ 1 := by
    rw [maxPowerIndex_eq]
    simp [heldDown, lockedOn, queueData, recorded, SourceSelector_impl.make]; norm_num
  refine ⟨heldDown_reached, rfl, rfl, hw, ?_, ?_, _,
    handleMsg_notWinner heldDown (3 / 10) ⟨some 10, [(3, 0)]⟩ 1 0 0 rfl rfl hw2,
    rfl, rfl, rfl, rfl⟩
  · simp [heldDown, lockedOn, queueData, recorded, SourceSelector_impl.make]; norm_num
  · norm_num [heldDown, lockedOn, queueData, recorded, SourceSelector_impl.make]

/-- C22, amended. In a Locked state a challenger (the computed winner, more
than 2.0 above the current channel) is refused because the hold time has not
elapsed. A following report from the current channel, at any time, is
accepted (its samples are appended to the queue) when the winner computation,
once its metric is recorded, names the current channel; when the winner
computation names another channel the report is dropped: nothing is queued,
nothing is published. The latter is the case whenever the current channel
reports the metric it already had, the challenger still being the winner. -/
theorem current_during_holdDown (s : SourceSelector_impl) (now1 now2 : ℚ) (msgC msgB : Msg)
    (challenger : Int) (pc pb : Fin 4)
    (hpc : slot? (challenger - 1) = some pc) (hpb : slot? (s.d_currentInput - 1) = some pb)
    (hne : s.d_currentInput ≠ challenger) (hi : s.d_startInitialized = true)
    (hw : maxPowerIndex (recorded s pc msgC).maxPower + 1 = challenger)
    (_hd : |(recorded s pc msgC).maxPower pc - (recorded s pc msgC).maxPower pb| > 2)
    (ht : ¬ (now1 - s.lastShifted > s.d_holdTime)) (hl : s.limitQueue = false) :
    handleMsg s now1 msgC challenger = some ⟨recorded s pc msgC, [], false⟩
    ∧ ∃ o, handleMsg (recorded s pc msgC) now2 msgB s.d_currentInput = some o
        ∧ o.inputchange = []
        ∧ o.state.d_currentInput = s.d_currentInput
        ∧ (maxPowerIndex (recorded (recorded s pc msgC) pb msgB).maxPower + 1 = s.d_currentInput →
            o.queued = true ∧ o.state.dataQueue = s.dataQueue ++ msgB.data)
        ∧ (maxPowerIndex (recorded (recorded s pc msgC) pb msgB).maxPower + 1 ≠ s.d_currentInput →
            o.queued = false ∧ o.state.dataQueue = s.dataQueue)
        ∧ (msgB.decisionvalue.getD (-999) = (recorded s pc msgC).maxPower pb →
            o.queued = false ∧ o.state.dataQueue = s.dataQueue) := by
  refine ⟨handleMsg_holdDown s now1 msgC challenger pc pb hpc hne hpb hi ht, ?_⟩
  have hdrop : maxPowerIndex (recorded (recorded s pc msgC) pb msgB).maxPower + 1
        ≠ s.d_currentInput →
      handleMsg (recorded s pc msgC) now2 msgB s.d_currentInput
        = some ⟨recorded (recorded s pc msgC) pb msgB, [], false⟩ := by
    intro hw2
    exact handleMsg_margin (recorded s pc msgC) now2 msgB s.d_currentInput pb pb hpb
      (fun h => hw2 h.2) hpb (by simp)
  have hsame : msgB.decisionvalue.getD (-999) = (recorded s pc msgC).maxPower pb →
      maxPowerIndex (recorded (recorded s pc msgC) pb msgB).maxPower + 1 ≠ s.d_currentInput := by
    intro hm
    have htab : (recorded (recorded s pc msgC) pb msgB).maxPower = (recorded s pc msgC).maxPower := by
      show Function.update (recorded s pc msgC).maxPower pb (msgB.decisionvalue.getD (-999))
        = (recorded s pc msgC).maxPower
      rw [hm, Function.update_eq_self]
    rw [htab, hw]
    exact Ne.symm hne
  by_cases hw2 : maxPowerIndex (recorded (recorded s pc msgC) pb msgB).maxPower + 1
      = s.d_currentInput
  · have hq : (queueData (recorded (recorded s pc msgC) pb msgB) msgB).dataQueue
        = s.dataQueue ++ msgB.data := by
      simp [queueData, recorded, hl]
    refine ⟨_, handleMsg_accept (recorded s pc msgC) now2 msgB s.d_currentInput pb hpb rfl hw2,
      rfl, (queueData_frame _ _).1, fun _ => ⟨rfl, hq⟩, fun h => absurd hw2 h,
      fun hm => absurd hw2 (hsame hm)⟩
  · exact ⟨_, hdrop hw2, rfl, rfl, fun h => absurd h hw2, fun _ => ⟨rfl, rfl⟩,
      fun _ => ⟨rfl, rfl⟩⟩

/-- Witness for C22 as amended: after the refusal of channel 2 (metric 13),
channel 1 reports metric 20; the winner computation names channel 1 again
and the report is accepted. -/
theorem current_during_holdDown_witness :
    handleMsg (lockedOn (SourceSelector_impl.make 1 4 2 1024) 0 ⟨some 10, [(1, 0)]⟩ 1 0)
        (1 / 5) ⟨some 13, [(2, 0)]⟩ 2
      = some ⟨heldDown, [], false⟩
    ∧ ∃ o, handleMsg heldDown (3 / 10) ⟨some 20, [(3, 0)]⟩ 1 = some o
        ∧ o.inputchange = [] ∧ o.queued = true
        ∧ o.state.dataQueue = [(1, 0), (3, 0)] := by
  have hw2 : maxPowerIndex (recorded heldDown 0 ⟨some 20, [(3, 0)]⟩).maxPower + 1 = 1 := by
    rw [maxPowerIndex_eq]
    simp [heldDown, lockedOn, queueData, recorded, SourceSelector_impl.make]; norm_num
  obtain ⟨h1, o, h2, h3, -, h4, -, -⟩ := current_during_holdDown
    (lockedOn (SourceSelector_impl.make 1 4 2 1024) 0 ⟨some 10, [(1, 0)]⟩ 1 0)
    (1 / 5) (3 / 10) ⟨some 13, [(2, 0)]⟩ ⟨some 20, [(3, 0)]⟩ 2 1 0 rfl rfl (by decide) rfl
    (by rw [maxPowerIndex_eq]
        simp [lockedOn, queueData, recorded, SourceSelector_impl.make]; norm_num)
    (by simp [lockedOn, queueData, recorded, SourceSelector_impl.make]; norm_num)
    (by norm_num [lockedOn, queueData, recorded, SourceSelector_impl.make])
    rfl
  exact ⟨h1, o, h2, h3, (h4 hw2).1, (h4 hw2).2⟩

/-! ## C23: the descriptor carried by each signal PDU -/

theorem segmentStep_fresh (s : MesaEnergyDetector_impl) (numSignals : Int) (hn : numSignals > 0)
    (data_out : List gr_complex) (l : List SignalOverview) (sent : List Pdu) :
    l.foldl (MesaEnergyDetector_impl.segmentStep s numSignals data_out) (none, sent)
      = (none, sent ++ l.map (fun sig =>
          ⟨MesaEnergyDetector_impl.freshMeta s sig.centerFreqHz sig.widthHz sig.maxPower,
            data_out⟩)) := by
  induction l generalizing sent with
  | nil => simp
  | cons a l ih =>
    have hstep : MesaEnergyDetector_impl.segmentStep s numSignals data_out (none, sent) a
        = (none, sent ++ [⟨MesaEnergyDetector_impl.freshMeta s a.centerFreqHz a.widthHz
            a.maxPower, data_out⟩]) := by
      simp only [MesaEnergyDetector_impl.segmentStep, if_pos hn]
    simp only [List.foldl_cons, hstep, ih, List.map_cons, List.append_assoc,
      List.singleton_append]

theorem freshMeta_entries (s : MesaEnergyDetector_impl) (c w p : ℚ) (not_found : Pmt) :
    dict_ref (MesaEnergyDetector_impl.freshMeta s c w p) "signalCenterFreq" not_found = .real c
    ∧ dict_ref (MesaEnergyDetector_impl.freshMeta s c w p) "widthHz" not_found = .real w
    ∧ dict_ref (MesaEnergyDetector_impl.freshMeta s c w p) "maxPower" not_found = .real p
    ∧ dict_ref (MesaEnergyDetector_impl.freshMeta s c w p) "radioFreq" not_found
        = .real s.d_centerFreq
    ∧ dict_ref (MesaEnergyDetector_impl.freshMeta s c w p) "sampleRate" not_found
        = .real s.d_sampleRate := by
  refine ⟨?_, ?_, ?_, ?_, ?_⟩ <;>
    simp [MesaEnergyDetector_impl.freshMeta, dict_ref, dict_add, make_dict, List.lookup]

/-- The part of C23 the code keeps: without caller metadata, with signal PDUs
enabled and one or more descriptors found, the PDUs on `signals` are, in
order, one per descriptor, each with that descriptor's centre frequency,
width and peak power. -/
theorem signals_without_metadata (s : MesaEnergyDetector_impl) (now : ℚ)
    (input : List gr_complex) (l : List SignalOverview) (hgen : s.d_genSignalPDUs = true)
    (hne : l ≠ []) :
    (s.processData now input (Found.ofList l) none).signals.length = l.length
    ∧ ∀ i (hi : i < l.length) (e : Pdu),
        (s.processData now input (Found.ofList l) none).signals[i]? = some e →
        ∀ not_found,
          dict_ref e.meta "signalCenterFreq" not_found = .real (l.get ⟨i, hi⟩).centerFreqHz
          ∧ dict_ref e.meta "widthHz" not_found = .real (l.get ⟨i, hi⟩).widthHz
          ∧ dict_ref e.meta "maxPower" not_found = .real (l.get ⟨i, hi⟩).maxPower := by
  have hpos : (Found.ofList l).numSignals > 0 := by
    cases l with
    | nil => exact absurd rfl hne
    | cons a l =>
      simp only [Found.ofList, List.length_cons]
      push_cast
      omega
  have hg : (s.track now (Found.ofList l).numSignals).state.d_genSignalPDUs = true :=
    (track_frame s now _).1.trans hgen
  have hsig : (s.processData now input (Found.ofList l) none).signals
      = l.map (fun sig =>
          ⟨MesaEnergyDetector_impl.freshMeta (s.track now (Found.ofList l).numSignals).state
            sig.centerFreqHz sig.widthHz sig.maxPower, input⟩) := by
    have := segmentStep_fresh (s.track now (Found.ofList l).numSignals).state
      (Found.ofList l).numSignals hpos input l []
    simp only [MesaEnergyDetector_impl.processData, hg, if_true]
    show (l.foldl _ (none, [])).2 = _
    rw [this]
    rfl
  rw [hsig]
  refine ⟨by simp, fun i hi e he nf => ?_⟩
  rw [List.getElem?_map, List.getElem?_eq_getElem hi] at he
  have he' := Option.some.inj he
  rw [← he']
  have hent := freshMeta_entries (s.track now (Found.ofList l).numSignals).state
    (l.get ⟨i, hi⟩).centerFreqHz (l.get ⟨i, hi⟩).widthHz (l.get ⟨i, hi⟩).maxPower nf
  exact ⟨hent.1, hent.2.1, hent.2.2.1⟩

/-- C23 (the code misses it). Signal PDUs are enabled, the caller's metadata
holds only `tag` (none of the three keys), and two descriptors are found:
(5, 6, -20) and (7, 8, -30). The claim demands that the second PDU carries
(7, 8, -30); in the code the first round of the loop writes the first
descriptor into the caller's metadata, the second round finds the keys present
and leaves them, so both PDUs carry (5, 6, -20). Without caller metadata the
same block gives one PDU per descriptor with its own values. -/
theorem second_segment_repeats_first :
    sampleDetector.d_genSignalPDUs = true
    ∧ dict_has_key [("tag", .long 7)] "signalCenterFreq" = false
    ∧ dict_has_key [("tag", .long 7)] "widthHz" = false
    ∧ dict_has_key [("tag", .long 7)] "maxPower" = false
    ∧ (sampleDetector.processData 0 [(1, 2)] (Found.ofList [⟨5, 6, -20⟩, ⟨7, 8, -30⟩])
          (some [("tag", .long 7)])).signals.map
        (fun e => (dict_ref e.meta "signalCenterFreq" (.long 0),
          dict_ref e.meta "widthHz" (.long 0), dict_ref e.meta "maxPower" (.long 0)))
      = [(.real 5, .real 6, .real (-20)), (.real 5, .real 6, .real (-20))]
    ∧ (sampleDetector.handleMsgIn 0 ⟨[("tag", .long 7)], [(1, 2)]⟩
          (Found.ofList [⟨5, 6, -20⟩, ⟨7, 8, -30⟩])).map
        (fun r => r.signals.map
          (fun e => (dict_ref e.meta "signalCenterFreq" (.long 0),
            dict_ref e.meta "widthHz" (.long 0), dict_ref e.meta "maxPower" (.long 0))))
      = some [(.real 5, .real 6, .real (-20)), (.real 5, .real 6, .real (-20))]
    ∧ (sampleDetector.processData 0 [(1, 2)] (Found.ofList [⟨5, 6, -20⟩, ⟨7, 8, -30⟩])
          none).signals.map
        (fun e => (dict_ref e.meta "signalCenterFreq" (.long 0),
          dict_ref e.meta "widthHz" (.long 0), dict_ref e.meta "maxPower" (.long 0)))
      = [(.real 5, .real 6, .real (-20)), (.real 7, .real 8, .real (-30))] := by
  decide

/-! ## C24: channel indices stay within the table -/

theorem maxPowerIndex_bounds (t : Fin 4 → ℚ) : 0 ≤ maxPowerIndex t ∧ maxPowerIndex t < 4 := by
  rw [maxPowerIndex_eq]
  split_ifs <;> omega

/-- A default channel of 5 is outside the table: the first report from
another port reads `maxPower[4]`. -/
theorem defaultInput_five_out_of_bounds :
    handleMsg (SourceSelector_impl.make 1 4 5 1024) 0 ⟨some 10, [(1, 0)]⟩ 1 = none := by
  rfl

/-- C24. For a block constructed with defaultInput at most 4 (a value of 0 or
less being replaced by 1) and any sequence of reports on ports 1..4 (with
`work` calls in between), the run meets no access outside the four-entry
table, the state reached has its current channel in 1..4, the index returned
by `maxPowerIndex` is in 0..3, and a further report on any port 1..4 again
addresses the table at `port - 1` and `currentChannel - 1` within bounds. -/
theorem channel_index_safe (holdTime : ℚ) (numInputs defaultInput bs : Int)
    (cs : List Call) (hd : defaultInput ≤ 4) (hc : ∀ c ∈ cs, c.portOk) :
    (defaultInput ≤ 0 →
        (SourceSelector_impl.make holdTime numInputs defaultInput bs).d_currentInput = 1)
    ∧ ∃ tr, (Trace.start (SourceSelector_impl.make holdTime numInputs defaultInput bs)).run cs
          = some tr
        ∧ 1 ≤ tr.state.d_currentInput ∧ tr.state.d_currentInput ≤ 4
        ∧ 0 ≤ maxPowerIndex tr.state.maxPower ∧ maxPowerIndex tr.state.maxPower < 4
        ∧ ∀ (now : ℚ) (msg : Msg) (port : Int), 1 ≤ port → port ≤ 4 →
            ∃ pi ci o, slot? (port - 1) = some pi
              ∧ slot? (tr.state.d_currentInput - 1) = some ci
              ∧ handleMsg tr.state now msg port = some o
              ∧ 1 ≤ o.state.d_currentInput ∧ o.state.d_currentInput ≤ 4 := by
  constructor
  · intro h0
    simp only [SourceSelector_impl.make]
    rw [if_pos h0]
  · obtain ⟨tr, hr, hcur, hl, -⟩ :=
      Trace.run_consistent cs (Trace.start_consistent holdTime numInputs defaultInput bs hd) hc
    have hb := maxPowerIndex_bounds tr.state.maxPower
    refine ⟨tr, hr, hcur.1, hcur.2, hb.1, hb.2, fun now msg port h1 h4 => ?_⟩
    obtain ⟨pi, hpi⟩ := slot?_isSome port ⟨h1, h4⟩
    obtain ⟨ci, hci⟩ := slot?_isSome tr.state.d_currentInput hcur
    obtain ⟨o, ho, hcur', -⟩ := handleMsg_effect tr.state now msg port hcur ⟨h1, h4⟩ hl
    exact ⟨pi, ci, o, hpi, hci, ho, hcur'.1, hcur'.2⟩

/-- Witness for C24: default channel 2, the run in which channel 2 takes over
from channel 1. -/
theorem channel_index_safe_witness :
    (2 : Int) ≤ 4 ∧ (∀ c ∈ switchingRun, c.portOk)
    ∧ ∃ tr, (Trace.start (SourceSelector_impl.make 1 4 2 1)).run switchingRun = some tr
        ∧ 1 ≤ tr.state.d_currentInput ∧ tr.state.d_currentInput ≤ 4
        ∧ 0 ≤ maxPowerIndex tr.state.maxPower ∧ maxPowerIndex tr.state.maxPower < 4
        ∧ ∀ (now : ℚ) (msg : Msg) (port : Int), 1 ≤ port → port ≤ 4 →
            ∃ pi ci o, slot? (port - 1) = some pi
              ∧ slot? (tr.state.d_currentInput - 1) = some ci
              ∧ handleMsg tr.state now msg port = some o
              ∧ 1 ≤ o.state.d_currentInput ∧ o.state.d_currentInput ≤ 4 :=
  ⟨by decide, by decide,
    (channel_index_safe 1 4 2 1 switchingRun (by decide) (by decide)).2⟩

end Mesa
